import Mathlib

/-!
Verification of the n7tya-lang core (lexer/parser/checker/interpreter pipeline,
written in Rust) against its natural-language specification.

This file is a shallow embedding of the parts of the implementation that the
checked claims talk about:

* the AST data model (`src/ast.rs`);
* the tree-walking interpreter (`src/interpreter.rs`): runtime values, the
  chain of mutable lexical environments, statement signals
  (value/return/break/continue), binary operators, closures, method dispatch;
* the markup renderer (`src/jsx_render.rs`);
* the type checker (`src/typechecker.rs`) and the `run_file` driver
  (`src/main.rs`).

Modelling conventions:

* Rust's shared mutable cells (`Rc<RefCell<...>>`) are modelled with explicit
  heaps: a `Value.List`/`Value.Set` holds an index into `St.listH`, a
  `Value.Dict`/`Value.Class` an index into `St.mapH`, and an environment a
  node index into `St.envH`.  Cloning a value clones the index, which is
  exactly `Rc::clone`'s sharing semantics; scalar variants carry their
  payload inline, which is `derive(Clone)`'s copy semantics.
* `i64` is modelled as `Int`.  None of the verified claims exercises 64-bit
  wrap-around, and the one arithmetic panic that matters (remainder with a
  zero divisor) is modelled explicitly with `Res.panic`.
* `f64` is modelled as `Rat`.  No verified claim performs any floating-point
  arithmetic; the `Float` variant exists so that the operator tables have the
  same shape as the source.
* `HashMap<String, _>` is modelled as an association list with
  replace-or-append insertion; only lookup and insertion are relied on, so
  the unspecified iteration order of the Rust hash map is immaterial.
* Evaluation is fuel-indexed: every function of the mutually recursive
  evaluator pattern-matches its fuel first and recursive calls use the
  predecessor, so running out of fuel (`Res.timeout`) stands for
  non-termination and never for an error.
* A Rust `panic!` (process abort) is `Res.panic`; an operation that hands
  control to an external collaborator that is out of the modelled core
  (stdin, filesystem, network, the HTTP listener) is `Res.ext`.
-/

namespace N7tya

/-! ## AST (`src/ast.rs`) -/

/-- Syntactic type annotations (`ast.rs` `Type`; renamed `Ty` because `Type`
is reserved in Lean). -/
inductive Ty where
  | Int
  | Float
  | Bool
  | Str
  | List (inner : Ty)
  | Dict (key : Ty) (val : Ty)
  | Set (inner : Ty)
  | Fn (params : List Ty) (ret : Ty)
  | Custom (name : String)

/-- Binary operators (`ast.rs` `BinaryOp`). -/
inductive BinaryOp where
  | Add | Sub | Mul | Div | Mod
  | Eq | Ne | Lt | Gt | Le | Ge
  | And | Or
  | In

/-- Unary operators (`ast.rs` `UnaryOp`). -/
inductive UnaryOp where
  | Neg
  | Not

mutual

/-- Expressions (`ast.rs` `Expression`). -/
inductive Expression where
  | Literal (lit : Literal)
  | Identifier (name : String)
  | BinaryOp (bin : BinaryExpr)
  | UnaryOp (un : UnaryExpr)
  | Call (c : CallExpr)
  | MemberAccess (m : MemberExpr)
  | Index (idx : IndexExpr)
  | Lambda (l : LambdaExpr)
  | Await (inner : Expression)
  | JsxElement (e : JsxElement)

/-- Literals (`ast.rs` `Literal`). -/
inductive Literal where
  | Int (n : Int)
  | Float (f : Rat)
  | Str (s : String)
  | Bool (b : Bool)
  | List (items : List Expression)
  | Dict (items : List (Expression × Expression))
  | Set (items : List Expression)
  | None

/-- Binary expression node (`ast.rs` `BinaryExpr`). -/
inductive BinaryExpr where
  | mk (left : Expression) (op : BinaryOp) (right : Expression)

/-- Unary expression node (`ast.rs` `UnaryExpr`). -/
inductive UnaryExpr where
  | mk (op : UnaryOp) (operand : Expression)

/-- Call node (`ast.rs` `CallExpr`). -/
inductive CallExpr where
  | mk (func : Expression) (args : List Expression)

/-- Member access node (`ast.rs` `MemberExpr`). -/
inductive MemberExpr where
  | mk (object : Expression) (member : String)

/-- Index node (`ast.rs` `IndexExpr`). -/
inductive IndexExpr where
  | mk (object : Expression) (index : Expression)

/-- Lambda node (`ast.rs` `LambdaExpr`). -/
inductive LambdaExpr where
  | mk (params : List String) (body : Expression)

/-- Markup element (`ast.rs` `JsxElement`). -/
inductive JsxElement where
  | mk (tag : String) (attributes : List JsxAttribute) (children : List JsxChild)

/-- Markup attribute (`ast.rs` `JsxAttribute`). -/
inductive JsxAttribute where
  | mk (name : String) (value : Option Expression)

/-- Markup child node (`ast.rs` `JsxChild`). -/
inductive JsxChild where
  | Element (e : JsxElement)
  | Text (t : String)
  | Expression (e : Expression)

/-- Match patterns (`ast.rs` `Pattern`). -/
inductive Pattern where
  | Literal (lit : Literal)
  | Identifier (name : String)
  | Wildcard
  | Range (lo : Int) (hi : Int)

end

@[simp] def BinaryExpr.left : BinaryExpr → Expression
  | .mk l _ _ => l

@[simp] def BinaryExpr.op : BinaryExpr → BinaryOp
  | .mk _ o _ => o

@[simp] def BinaryExpr.right : BinaryExpr → Expression
  | .mk _ _ r => r

/-- Variable declaration (`ast.rs` `LetDecl`; the annotation field is called
`tyAnn` here). -/
structure LetDecl where
  name : String
  value : Expression
  tyAnn : Option Ty

/-- Constant declaration (`ast.rs` `ConstDecl`). -/
structure ConstDecl where
  name : String
  value : Expression
  tyAnn : Option Ty

/-- Assignment statement (`ast.rs` `AssignmentStmt`). -/
structure AssignmentStmt where
  target : Expression
  value : Expression

/-- Component state declaration (`ast.rs` `StateDecl`). -/
structure StateDecl where
  name : String
  value : Expression

mutual

/-- Statements (`ast.rs` `Statement`). -/
inductive Statement where
  | Let (decl : LetDecl)
  | Const (decl : ConstDecl)
  | Return (expr : Option Expression)
  | Expression (e : Expression)
  | If (s : IfStmt)
  | For (s : ForStmt)
  | While (s : WhileStmt)
  | Match (s : MatchStmt)
  | Break
  | Continue
  | State (decl : StateDecl)
  | Render (r : RenderBlock)
  | Assignment (a : AssignmentStmt)

/-- If statement (`ast.rs` `IfStmt`). -/
inductive IfStmt where
  | mk (condition : Expression) (thenBlock : List Statement)
       (elseBlock : Option (List Statement))

/-- For statement (`ast.rs` `ForStmt`). -/
inductive ForStmt where
  | mk (target : String) (iterator : Expression) (body : List Statement)

/-- While statement (`ast.rs` `WhileStmt`). -/
inductive WhileStmt where
  | mk (condition : Expression) (body : List Statement)

/-- Match statement (`ast.rs` `MatchStmt`). -/
inductive MatchStmt where
  | mk (value : Expression) (cases : List MatchCase)

/-- Match case (`ast.rs` `MatchCase`). -/
inductive MatchCase where
  | mk (pattern : Pattern) (body : List Statement)

/-- Render block (`ast.rs` `RenderBlock`). -/
inductive RenderBlock where
  | mk (body : List Statement)

end

@[simp] def WhileStmt.condition : WhileStmt → Expression
  | .mk c _ => c

@[simp] def WhileStmt.body : WhileStmt → List Statement
  | .mk _ b => b

@[simp] def ForStmt.target : ForStmt → String
  | .mk t _ _ => t

@[simp] def ForStmt.iterator : ForStmt → Expression
  | .mk _ i _ => i

@[simp] def ForStmt.body : ForStmt → List Statement
  | .mk _ _ b => b

/-- Function parameter (`ast.rs` `Param`). -/
structure Param where
  name : String
  tyAnn : Option Ty

/-- Function definition (`ast.rs` `FunctionDef`). -/
structure FunctionDef where
  name : String
  params : List Param
  returnType : Option Ty
  body : List Statement
  isAsync : Bool

/-- Import statement (`ast.rs` `ImportStmt`). -/
structure ImportStmt where
  module : String
  names : List String
  aliasName : Option String

/-- Class field declaration (`ast.rs` `FieldDef`). -/
structure FieldDef where
  name : String
  tyAnn : Ty

/-- Class body item (`ast.rs` `ClassBodyItem`). -/
inductive ClassBodyItem where
  | Field (f : FieldDef)
  | Method (m : FunctionDef)

/-- Class definition (`ast.rs` `ClassDef`). -/
structure ClassDef where
  name : String
  parent : Option String
  body : List ClassBodyItem

/-- Component body item (`ast.rs` `ComponentBodyItem`). -/
inductive ComponentBodyItem where
  | State (s : StateDecl)
  | Method (m : FunctionDef)
  | Render (r : RenderBlock)

/-- Component definition (`ast.rs` `ComponentDef`). -/
structure ComponentDef where
  name : String
  body : List ComponentBodyItem

/-- HTTP route declaration (`ast.rs` `RouteDef`). -/
structure RouteDef where
  path : String
  method : String
  body : List Statement

/-- Server body item (`ast.rs` `ServerBodyItem`). -/
inductive ServerBodyItem where
  | Route (r : RouteDef)

/-- Server definition (`ast.rs` `ServerDef`). -/
structure ServerDef where
  name : String
  body : List ServerBodyItem

/-- Top-level item (`ast.rs` `Item`). -/
inductive Item where
  | FunctionDef (f : FunctionDef)
  | ClassDef (c : ClassDef)
  | ComponentDef (c : ComponentDef)
  | ServerDef (s : ServerDef)
  | Import (i : ImportStmt)
  | Statement (s : Statement)

/-- A whole program (`ast.rs` `Program`). -/
structure Program where
  items : List Item

/-! ## Runtime values and state (`src/interpreter.rs`) -/

/-- Runtime values (`interpreter.rs` `Value`).  The `List`, `Dict`, `Set` and
`Class` variants hold heap addresses, mirroring `Rc<RefCell<...>>` shared
ownership; all other variants carry their payload inline, mirroring
`derive(Clone)` copy-on-assignment. -/
inductive Value where
  | Int (n : Int)
  | Float (f : Rat)
  | Str (s : String)
  | Bool (b : Bool)
  | List (addr : Nat)
  | None
  | Fn (func : FunctionDef) (env : Nat)
  | BuiltinFn (name : String)
  | Class (name : String) (fields : Nat)
  | Dict (addr : Nat)
  | Set (addr : Nat)
  | Return (v : Value)

/-- One environment node (`interpreter.rs` `Env`): a name-to-value mapping and
an optional parent address, the `Rc<RefCell<Env>>` being an `envH` index. -/
structure Env where
  values : List (String × Value)
  parent : Option Nat

/-- Interpreter state: the three heaps behind the `Rc<RefCell<...>>`
indirections, the current environment (`Interpreter.env`), and the unused
`Interpreter.output` buffer (declared in the source, never written). -/
structure St where
  envH : List Env
  listH : List (List Value)
  mapH : List (List (String × Value))
  curEnv : Nat
  output : List String

/-- Outcome of a computation.  `ok` and `err` are Rust's
`Result<_, String>`; `panic` is a Rust `panic!` (process abort);
`ext` marks a hand-off to an external collaborator outside the modelled core
(stdin, filesystem, network, the HTTP listener); `timeout` is fuel
exhaustion, standing for non-termination. -/
inductive Res (α : Type) where
  | ok (a : α)
  | err (msg : String)
  | panic (msg : String)
  | ext (what : String)
  | timeout

/-- Sequencing of outcomes (the `?` operator on `Result`, extended to the
panic/ext/timeout outcomes, which all propagate). -/
@[simp] def Res.andThen {α β : Type} : Res α → (α → Res β) → Res β
  | .ok a, f => f a
  | .err m, _ => .err m
  | .panic m, _ => .panic m
  | .ext w, _ => .ext w
  | .timeout, _ => .timeout

/-- Statement execution signals (`interpreter.rs` `ExecutionResult`). -/
inductive ExecutionResult where
  | Value (v : Value)
  | Return (v : Value)
  | Break
  | Continue

/-! ### Association lists (the `HashMap<String, _>` operations used) -/

/-- Lookup (`HashMap::get`). -/
def assocGet {α : Type} (l : List (String × α)) (key : String) : Option α :=
  match l with
  | [] => Option.none
  | (k, v) :: rest => if k = key then some v else assocGet rest key

/-- Insert-or-replace (`HashMap::insert`). -/
def assocSet {α : Type} (l : List (String × α)) (key : String) (v : α) :
    List (String × α) :=
  match l with
  | [] => [(key, v)]
  | (k, w) :: rest =>
      if k = key then (k, v) :: rest else (k, w) :: assocSet rest key v

/-- Key-presence test (`HashMap::contains_key`). -/
def assocHas {α : Type} (l : List (String × α)) (key : String) : Bool :=
  match l with
  | [] => false
  | (k, _) :: rest => if k = key then true else assocHas rest key

/-- In-place update of one heap cell (a `borrow_mut()` write through an
`Rc<RefCell<...>>`). -/
def listModify {α : Type} : List α → Nat → (α → α) → List α
  | [], _, _ => []
  | x :: xs, 0, f => f x :: xs
  | x :: xs, n + 1, f => x :: listModify xs n f

/-! ### Environment-chain operations (`interpreter.rs` `Env`) -/

/-- `Env::define`: always writes into the innermost scope (here: the node at
address `a`). -/
def envDefine (st : St) (a : Nat) (name : String) (v : Value) : St :=
  { st with envH := listModify st.envH a (fun e =>
      { e with values := assocSet e.values name v }) }

/-- Walk of the parent chain for `Env::get`.  The `fuel` bounds the walk by
the heap size: on every state the interpreter can reach, parent addresses
strictly decrease, so the bound is never hit; it only makes the function
total on arbitrary (unreachable, cyclic) heaps. -/
def envGetAux (h : List Env) : Nat → Nat → String → Option Value
  | 0, _, _ => Option.none
  | fuel + 1, a, name =>
    match h.get? a with
    | Option.none => Option.none
    | some e =>
      match assocGet e.values name with
      | some v => some v
      | Option.none =>
        match e.parent with
        | some p => envGetAux h fuel p name
        | Option.none => Option.none

/-- `Env::get` starting from environment address `a`. -/
def envGetFrom (st : St) (a : Nat) (name : String) : Option Value :=
  envGetAux st.envH (st.envH.length + 1) a name

/-- Walk of the parent chain for `Env::set`: replaces the binding in the
first scope that has one and reports whether any scope did. -/
def envSetAux (h : List Env) : Nat → Nat → String → Value → Option (List Env)
  | 0, _, _, _ => Option.none
  | fuel + 1, a, name, v =>
    match h.get? a with
    | Option.none => Option.none
    | some e =>
      if assocHas e.values name then
        some (listModify h a (fun n =>
          { n with values := assocSet n.values name v }))
      else
        match e.parent with
        | some p => envSetAux h fuel p name v
        | Option.none => Option.none

/-- `Env::set` starting from the current environment: `some st'` when an
existing binding was overwritten, `Option.none` when the name is bound
nowhere in the chain (Rust's `false` return). -/
def envSet (st : St) (name : String) (v : Value) : Option St :=
  match envSetAux st.envH (st.envH.length + 1) st.curEnv name v with
  | some h => some { st with envH := h }
  | Option.none => Option.none

/-! ### Value display and truthiness (`interpreter.rs` `impl Value`) -/

/-- Depth-bounded rendering for `Value::display`.  The depth bound is only
there to make the function total on arbitrary heaps: on the acyclic heaps the
interpreter builds, any chain of nested cells visits distinct cells, so a
bound above the cell count is never hit (on a cyclic heap the Rust original
overflows its stack).  `Float` display shows the exact rational; no verified
claim renders a float. -/
def displayAux (st : St) : Nat → Value → String
  | 0, _ => ""
  | depth + 1, v =>
    match v with
    | .Int n => toString n
    | .Float f => toString f
    | .Str s => s
    | .Bool b => toString b
    | .List a =>
        "[" ++ String.intercalate ", "
          ((st.listH.getD a []).map (displayAux st depth)) ++ "]"
    | .None => "none"
    | .Fn f _ => "<fn " ++ f.name ++ ">"
    | .BuiltinFn name => "<builtin " ++ name ++ ">"
    | .Class name _ => "<" ++ name ++ " instance>"
    | .Dict a =>
        "\x7b" ++ String.intercalate ", "
          ((st.mapH.getD a []).map
            (fun p => p.1 ++ ": " ++ displayAux st depth p.2)) ++ "\x7d"
    | .Set a =>
        "\x7b" ++ String.intercalate ", "
          ((st.listH.getD a []).map (displayAux st depth)) ++ "\x7d"
    | .Return v => displayAux st depth v

/-- `Value::display`. -/
def display (st : St) (v : Value) : String :=
  displayAux st (st.listH.length + st.mapH.length + 1) v

/-- `Value::is_truthy`.  The collection variants read their heap cell
(`borrow()`); a dangling address is unreachable from the interpreter. -/
def isTruthy (st : St) (v : Value) : Bool :=
  match v with
  | .Bool b => b
  | .Int n => n != 0
  | .Float f => f != 0
  | .Str s => !s.isEmpty
  | .List a => !(st.listH.getD a []).isEmpty
  | .Dict a => !(st.mapH.getD a []).isEmpty
  | .Set a => !(st.listH.getD a []).isEmpty
  | .None => false
  | _ => true

/-- Abbreviated `derive(Debug)` rendering, used only inside error-message
text ("Cannot call ...", "Unsupported operation: ...").  No verified claim
inspects these strings, so the exact derived format is not reproduced. -/
def debugRepr : Value → String
  | .Int n => s!"Int({n})"
  | .Float f => s!"Float({f})"
  | .Str s => s!"Str({s})"
  | .Bool b => s!"Bool({b})"
  | .List _ => "List(..)"
  | .None => "None"
  | .Fn _ _ => "Fn(..)"
  | .BuiltinFn n => s!"BuiltinFn({n})"
  | .Class n _ => s!"Class({n}, ..)"
  | .Dict _ => "Dict(..)"
  | .Set _ => "Set(..)"
  | .Return _ => "Return(..)"

/-- Debug rendering of operators, used in the "Unsupported operation" error. -/
def opRepr : BinaryOp → String
  | .Add => "Add" | .Sub => "Sub" | .Mul => "Mul" | .Div => "Div"
  | .Mod => "Mod" | .Eq => "Eq" | .Ne => "Ne" | .Lt => "Lt"
  | .Gt => "Gt" | .Le => "Le" | .Ge => "Ge" | .And => "And"
  | .Or => "Or" | .In => "In"

/-- `Interpreter::values_equal`: contents equality for Int/Str/Bool only;
every other pairing (including all compound values) compares unequal. -/
def valuesEqual : Value → Value → Bool
  | .Int x, .Int y => x == y
  | .Str x, .Str y => x == y
  | .Bool x, .Bool y => x == y
  | _, _ => false

/-- `Interpreter::pattern_matches`. -/
def patternMatches : Pattern → Value → Bool
  | .Wildcard, _ => true
  | .Literal (.Int n), v =>
      match v with | .Int m => m == n | _ => false
  | .Literal (.Str s), v =>
      match v with | .Str t => t == s | _ => false
  | .Literal (.Bool b), v =>
      match v with | .Bool c => c == b | _ => false
  | .Identifier _, _ => true
  | _, _ => false

/-! ### String helpers used by `call_method` and `call_builtin` -/

/-- Char index of the first occurrence of `sub` in `s` (none if absent). -/
def strFindIdx (s sub : String) : Option Nat :=
  (List.range (s.length + 1)).find? (fun i => (s.drop i).startsWith sub)

/-- Byte index of the first occurrence, as Rust's `str::find` returns. -/
def strFindByte (s sub : String) : Option Nat :=
  (strFindIdx s sub).map (fun i => (s.take i).utf8ByteSize)

/-- Rust's `str::contains`. -/
def strContains (s sub : String) : Bool :=
  (strFindIdx s sub).isSome

/-! ### Binary operators (`interpreter.rs` `eval_binary_op`) -/

/-- `Interpreter::eval_binary_op`.  The operator/variant table is transcribed
arm by arm.  `Div` guards against a zero divisor and reports the error
string; `Mod` has no guard in the source, so `a % 0` is the Rust remainder
panic (a process abort), modelled as `Res.panic`.  Rust `/` and `%` on `i64`
truncate toward zero, which is `Int.tdiv`/`Int.tmod`. -/
def evalBinaryOp (st : St) (op : BinaryOp) (left right : Value) : Res Value :=
  match op, left, right with
  | .Add, .Int a, .Int b => .ok (.Int (a + b))
  | .Add, .Float a, .Float b => .ok (.Float (a + b))
  | .Add, .Str a, .Str b => .ok (.Str (a ++ b))
  | .Sub, .Int a, .Int b => .ok (.Int (a - b))
  | .Mul, .Int a, .Int b => .ok (.Int (a * b))
  | .Div, .Int a, .Int b =>
      if b == 0 then .err "Division by zero" else .ok (.Int (a.tdiv b))
  | .Mod, .Int a, .Int b =>
      if b == 0 then
        .panic "attempt to calculate the remainder with a divisor of zero"
      else .ok (.Int (a.tmod b))
  | .Eq, .Int a, .Int b => .ok (.Bool (a == b))
  | .Eq, .Str a, .Str b => .ok (.Bool (a == b))
  | .Eq, .Bool a, .Bool b => .ok (.Bool (a == b))
  | .Ne, .Int a, .Int b => .ok (.Bool (a != b))
  | .Lt, .Int a, .Int b => .ok (.Bool (decide (a < b)))
  | .Gt, .Int a, .Int b => .ok (.Bool (decide (a > b)))
  | .Le, .Int a, .Int b => .ok (.Bool (decide (a ≤ b)))
  | .Ge, .Int a, .Int b => .ok (.Bool (decide (a ≥ b)))
  | .And, _, _ => .ok (.Bool (isTruthy st left && isTruthy st right))
  | .Or, _, _ => .ok (.Bool (isTruthy st left || isTruthy st right))
  | .In, _, .List l =>
      .ok (.Bool ((st.listH.getD l []).any (fun v => valuesEqual left v)))
  | .In, .Str sub, .Str s => .ok (.Bool (strContains s sub))
  | _, _, _ =>
      .err ("Unsupported operation: " ++ debugRepr left ++ " " ++ opRepr op
            ++ " " ++ debugRepr right)

/-! ### Method dispatch (`interpreter.rs` `call_method`) -/

/-- Insert at position (Rust `Vec::insert`); callers must have checked the
bound, as `Vec::insert` panics past the length. -/
def listInsertAt {α : Type} : List α → Nat → α → List α
  | l, 0, x => x :: l
  | [], _ + 1, x => [x]
  | y :: ys, n + 1, x => y :: listInsertAt ys n x

/-- Remove a key (Rust `HashMap::remove`), returning the removed value. -/
def assocRemove (l : List (String × Value)) (key : String) :
    Option (Value × List (String × Value)) :=
  match l with
  | [] => Option.none
  | (k, v) :: rest =>
      if k = key then some (v, rest)
      else
        match assocRemove rest key with
        | some (w, rest') => some (w, (k, v) :: rest')
        | Option.none => Option.none

/-- Insertion into a sorted list of ints, for `sorted()`. -/
def insertSorted (x : Int) : List Int → List Int
  | [] => [x]
  | y :: ys => if x ≤ y then x :: y :: ys else y :: insertSorted x ys

/-- Ascending sort (Rust `Vec::sort` on ints). -/
def sortInts : List Int → List Int
  | [] => []
  | x :: xs => insertSorted x (sortInts xs)

/-- Allocation loop for `Dict.items`: each key/value pair becomes a freshly
allocated two-element list cell, in map order. -/
def allocPairItems : St → List (String × Value) → (List Value × St)
  | st, [] => ([], st)
  | st, (k, v) :: rest =>
    let addr := st.listH.length
    let st' := { st with listH := st.listH ++ [[Value.Str k, v]] }
    let (vs, st'') := allocPairItems st' rest
    (Value.List addr :: vs, st'')

/-- `Interpreter::call_method` — the fixed per-variant method tables.
Mutating methods write the receiver's heap cell in place.  `toUpper`,
`toLower` and `splitOn` idealize the corresponding Rust Unicode string
operations to their common behavior; no verified claim exercises the
divergent edge cases (non-ASCII case mapping, empty separators). -/
def callMethod (st : St) (obj : Value) (method : String) (args : List Value) :
    Res (Value × St) :=
  match obj with
  | .List a =>
    match method with
    | "append" =>
      match args with
      | [v] =>
          .ok (.None,
            { st with listH := listModify st.listH a (fun l => l ++ [v]) })
      | _ => .err "append() takes exactly 1 argument"
    | "pop" =>
      let l := st.listH.getD a []
      match l.getLast? with
      | some v =>
          .ok (v, { st with listH := listModify st.listH a (fun l => l.dropLast) })
      | Option.none => .err "pop from empty list"
    | "insert" =>
      match args with
      | [i, v] =>
        match i with
        | .Int idx =>
          let l := st.listH.getD a []
          if idx < 0 ∨ l.length < idx.toNat then
            .panic "insertion index out of bounds in Vec::insert"
          else
            .ok (.None,
              { st with
                listH := listModify st.listH a (fun l => listInsertAt l idx.toNat v) })
        | _ => .err "insert() first argument must be int"
      | _ => .err "insert() takes exactly 2 arguments"
    | "clear" =>
        .ok (.None, { st with listH := listModify st.listH a (fun _ => []) })
    | "index" =>
      match args with
      | [x] =>
        let l := st.listH.getD a []
        match l.findIdx? (fun v => valuesEqual x v) with
        | some i => .ok (.Int i, st)
        | Option.none => .err "value not in list"
      | _ => .err "index() takes exactly 1 argument"
    | "count" =>
      match args with
      | [x] =>
        let n := (st.listH.getD a []).countP (fun v => valuesEqual x v)
        .ok (.Int n, st)
      | _ => .err "count() takes exactly 1 argument"
    | "copy" =>
        .ok (.List st.listH.length,
          { st with listH := st.listH ++ [st.listH.getD a []] })
    | _ => .err ("List has no method \x27" ++ method ++ "\x27")
  | .Str s =>
    match method with
    | "upper" => .ok (.Str s.toUpper, st)
    | "lower" => .ok (.Str s.toLower, st)
    | "strip" => .ok (.Str s.trim, st)
    | "split" =>
      let sep := match args.head? with | some (.Str t) => t | _ => " "
      let parts := (s.splitOn sep).map Value.Str
      .ok (.List st.listH.length, { st with listH := st.listH ++ [parts] })
    | "join" =>
      match args with
      | [x] =>
        match x with
        | .List a =>
          let l := st.listH.getD a []
          if l.all (fun v => match v with | .Str _ => true | _ => false) then
            .ok (.Str (String.intercalate s
              (l.map (fun v => match v with | .Str t => t | _ => ""))), st)
          else .err "join() requires list of strings"
        | _ => .err "join() requires a list argument"
      | _ => .err "join() takes exactly 1 argument"
    | "replace" =>
      match args with
      | [o, n] =>
        match o, n with
        | .Str old, .Str new => .ok (.Str (s.replace old new), st)
        | _, _ => .err "replace() requires string arguments"
      | _ => .err "replace() takes exactly 2 arguments"
    | "startswith" =>
      match args with
      | [p] =>
        match p with
        | .Str t => .ok (.Bool (s.startsWith t), st)
        | _ => .err "startswith() requires string argument"
      | _ => .err "startswith() takes exactly 1 argument"
    | "endswith" =>
      match args with
      | [p] =>
        match p with
        | .Str t => .ok (.Bool (s.endsWith t), st)
        | _ => .err "endswith() requires string argument"
      | _ => .err "endswith() takes exactly 1 argument"
    | "find" =>
      match args with
      | [p] =>
        match p with
        | .Str sub =>
            .ok (.Int (match strFindByte s sub with
                       | some i => (i : Int)
                       | Option.none => -1), st)
        | _ => .err "find() requires string argument"
      | _ => .err "find() takes exactly 1 argument"
    | "contains" =>
      match args with
      | [p] =>
        match p with
        | .Str sub => .ok (.Bool (strContains s sub), st)
        | _ => .err "contains() requires string argument"
      | _ => .err "contains() takes exactly 1 argument"
    | _ => .err ("Str has no method \x27" ++ method ++ "\x27")
  | .Dict a =>
    match method with
    | "keys" =>
      let ks := (st.mapH.getD a []).map (fun p => Value.Str p.1)
      .ok (.List st.listH.length, { st with listH := st.listH ++ [ks] })
    | "values" =>
      let vs := (st.mapH.getD a []).map (fun p => p.2)
      .ok (.List st.listH.length, { st with listH := st.listH ++ [vs] })
    | "items" =>
      let (itemVals, st') := allocPairItems st (st.mapH.getD a [])
      .ok (.List st'.listH.length, { st' with listH := st'.listH ++ [itemVals] })
    | "get" =>
      if args.isEmpty ∨ 2 < args.length then
        .err "get() takes 1 or 2 arguments"
      else
        match args.head? with
        | some (.Str key) =>
          let dflt := (args.get? 1).getD .None
          .ok ((assocGet (st.mapH.getD a []) key).getD dflt, st)
        | _ => .err "get() key must be string"
    | "pop" =>
      match args with
      | [k] =>
        match k with
        | .Str key =>
          match assocRemove (st.mapH.getD a []) key with
          | some (v, rest) =>
              .ok (v, { st with mapH := listModify st.mapH a (fun _ => rest) })
          | Option.none => .err ("Key error: " ++ key)
        | _ => .err "pop() key must be string"
      | _ => .err "pop() takes exactly 1 argument"
    | "clear" =>
        .ok (.None, { st with mapH := listModify st.mapH a (fun _ => []) })
    | "contains" =>
      match args with
      | [k] =>
        match k with
        | .Str key => .ok (.Bool (assocHas (st.mapH.getD a []) key), st)
        | _ => .err "contains() key must be string"
      | _ => .err "contains() takes exactly 1 argument"
    | _ => .err ("Dict has no method \x27" ++ method ++ "\x27")
  | _ => .err ("\x27" ++ display st obj ++ "\x27 has no methods")

/-! ## Markup rendering (`src/jsx_render.rs`) -/

/-- Replacement of every occurrence of one character (Rust's `str::replace`
with a `char` pattern, which is what `escape_html` uses; written out
character-wise so that it reduces in the kernel). -/
def replaceChar (s : String) (c : Char) (rep : String) : String :=
  String.mk (s.data.foldr
    (fun ch acc => if ch = c then rep.data ++ acc else ch :: acc) [])

/-- `jsx_render.rs` `escape_html`: the five replacements, in source order
(`&` first, so earlier substitutions are not re-escaped). -/
def escapeHtml (s : String) : String :=
  replaceChar
    (replaceChar
      (replaceChar
        (replaceChar (replaceChar s '&' "&amp;") '<' "&lt;")
        '>' "&gt;")
      (Char.ofNat 34) "&quot;")
    (Char.ofNat 39) "&#39;"

/-- `jsx_render.rs` `eval_jsx_expression`: a leftover stub.  Its body is a
long comment explaining that it should call the interpreter's
`eval_expression` (which is `pub(crate)` in `interpreter.rs`), followed by an
unconditional error return; the hook was never wired in, so every markup
attribute value and every brace-expression child fails to render. -/
def evalJsxExpression (_st : St) (_expr : Expression) : Res Value :=
  .err "Initialize logic pending pub(crate) access"

mutual

/-- `jsx_render.rs` `render_jsx`: open tag, attributes (each value evaluated
through `eval_jsx_expression` and HTML-escaped, `"true"` for bare
attributes), then either a self-closing ` />` when there are no children or
the rendered children followed by the close tag. -/
def renderJsx (st : St) (e : JsxElement) : Res String :=
  match e with
  | .mk tag attributes children =>
    (renderAttrs st attributes).andThen fun attrsStr =>
      if children.isEmpty then .ok ("<" ++ tag ++ attrsStr ++ " />")
      else
        (renderChildren st children).andThen fun inner =>
          .ok ("<" ++ tag ++ attrsStr ++ ">" ++ inner ++ "</" ++ tag ++ ">")

/-- Attribute loop of `render_jsx`. -/
def renderAttrs (st : St) : List JsxAttribute → Res String
  | [] => .ok ""
  | .mk name value :: rest =>
    (match value with
     | some expr =>
       (evalJsxExpression st expr).andThen fun v =>
         match v with
         | .Str s => .ok s
         | v => .ok (display st v)
     | Option.none => .ok "true").andThen fun valueStr =>
      (renderAttrs st rest).andThen fun restStr =>
        .ok (" " ++ name ++ "=\"" ++ escapeHtml valueStr ++ "\"" ++ restStr)

/-- Child loop of `render_jsx`: elements recurse, text is escaped,
brace-expressions go through `eval_jsx_expression`. -/
def renderChildren (st : St) : List JsxChild → Res String
  | [] => .ok ""
  | c :: rest =>
    (match c with
     | .Element el => renderJsx st el
     | .Text t => .ok (escapeHtml t)
     | .Expression expr =>
         (evalJsxExpression st expr).andThen fun v =>
           .ok (escapeHtml (display st v))).andThen fun piece =>
      (renderChildren st rest).andThen fun restStr => .ok (piece ++ restStr)

end

/-! ## Builtins (`src/builtins.rs` `call_builtin`)

The builtin catalogue is an external collaborator of the core (spec section
six); it is transcribed here because the interpreter's call paths reach it.
Builtins that perform real input/output (stdin, filesystem, network, JSON via
serde) are modelled as `Res.ext` hand-offs; the pure ones are transcribed.
`print`/`println` write to the process stdout, which is outside the modelled
state, and return `None`. -/

/-- Ascending integer range walk (`start..stop` stepping by `step ≥ 1`); the
fuel dominates the iteration count, so it is never exhausted. -/
def rangeUpAux : Nat → Int → Int → Int → List Int
  | 0, _, _, _ => []
  | fuel + 1, i, stop, step =>
      if i < stop then i :: rangeUpAux fuel (i + step) stop step else []

/-- Descending integer range walk (for a negative `step`). -/
def rangeDownAux : Nat → Int → Int → Int → List Int
  | 0, _, _, _ => []
  | fuel + 1, i, stop, step =>
      if stop < i then i :: rangeDownAux fuel (i + step) stop step else []

/-- `builtin_range`'s three-argument stepping loop. -/
def rangeStep (start stop step : Int) : List Int :=
  if 0 < step then rangeUpAux ((stop - start).toNat + 1) start stop step
  else if step < 0 then rangeDownAux ((start - stop).toNat + 1) start stop step
  else []

/-- Allocation loop for `enumerate()`: each element becomes a fresh
two-element `[index, value]` list cell. -/
def allocEnumItems : St → Nat → List Value → (List Value × St)
  | st, _, [] => ([], st)
  | st, i, v :: rest =>
    let addr := st.listH.length
    let st' := { st with listH := st.listH ++ [[Value.Int i, v]] }
    let (vs, st'') := allocEnumItems st' (i + 1) rest
    (Value.List addr :: vs, st'')

/-- Allocation loop for `zip()`: each aligned pair becomes a fresh
two-element list cell. -/
def allocZipItems : St → List (Value × Value) → (List Value × St)
  | st, [] => ([], st)
  | st, (x, y) :: rest =>
    let addr := st.listH.length
    let st' := { st with listH := st.listH ++ [[x, y]] }
    let (vs, st'') := allocZipItems st' rest
    (Value.List addr :: vs, st'')

/-- `builtin_min`'s fold: starts from the first int and silently skips any
later non-int element (`if let` without an else in the source). -/
def minFold (m : Int) : List Value → Int
  | [] => m
  | .Int n :: rest => minFold (if n < m then n else m) rest
  | _ :: rest => minFold m rest

/-- `builtin_max`'s fold, with the same silent skipping. -/
def maxFold (m : Int) : List Value → Int
  | [] => m
  | .Int n :: rest => maxFold (if m < n then n else m) rest
  | _ :: rest => maxFold m rest

/-- `builtin_sum`'s fold: errors on the first non-int element. -/
def sumInts : List Value → Option Int
  | [] => some 0
  | .Int n :: rest => (sumInts rest).map (fun s => n + s)
  | _ :: _ => Option.none

/-- `builtins.rs` `call_builtin`: name dispatch in source order, the
`__class_` constructor synthesis, and the unknown-name error. -/
def callBuiltin (st : St) (name : String) (args : List Value) :
    Res (Value × St) :=
  match name with
  | "print" => .ok (.None, st)
  | "println" => .ok (.None, st)
  | "len" =>
    match args.head? with
    | some (.List a) => .ok (.Int (st.listH.getD a []).length, st)
    | some (.Str s) => .ok (.Int s.utf8ByteSize, st)
    | some (.Dict a) => .ok (.Int (st.mapH.getD a []).length, st)
    | some (.Set a) => .ok (.Int (st.listH.getD a []).length, st)
    | _ => .err "len() expects list, string, dict, or set"
  | "range" =>
    match args with
    | [.Int n] =>
        let l := (rangeStep 0 n 1).map Value.Int
        .ok (.List st.listH.length, { st with listH := st.listH ++ [l] })
    | [.Int s, .Int e] =>
        let l := (rangeStep s e 1).map Value.Int
        .ok (.List st.listH.length, { st with listH := st.listH ++ [l] })
    | [.Int s, .Int e, .Int step] =>
        let l := (rangeStep s e step).map Value.Int
        .ok (.List st.listH.length, { st with listH := st.listH ++ [l] })
    | _ => .err "range() expects 1-3 integer arguments"
  | "input" => .ext "stdin read in builtin_input"
  | "str" =>
    match args.head? with
    | some v => .ok (.Str (display st v), st)
    | Option.none => .err "str() requires an argument"
  | "int" =>
    match args.head? with
    | some (.Int n) => .ok (.Int n, st)
    | some (.Float f) => .ok (.Int (f.num.tdiv f.den), st)
    | some (.Str s) =>
      match s.toInt? with
      | some n => .ok (.Int n, st)
      | Option.none => .err ("Cannot convert \x27" ++ s ++ "\x27 to int")
    | some (.Bool b) => .ok (.Int (if b then 1 else 0), st)
    | _ => .err "int() requires a numeric or string argument"
  | "float" =>
    match args.head? with
    | some (.Int n) => .ok (.Float n, st)
    | some (.Float f) => .ok (.Float f, st)
    | some (.Str _) => .ext "f64 parsing in builtin_float"
    | _ => .err "float() requires a numeric or string argument"
  | "type" =>
    match args.head? with
    | some (.Int _) => .ok (.Str "Int", st)
    | some (.Float _) => .ok (.Str "Float", st)
    | some (.Str _) => .ok (.Str "Str", st)
    | some (.Bool _) => .ok (.Str "Bool", st)
    | some (.List _) => .ok (.Str "List", st)
    | some (.Dict _) => .ok (.Str "Dict", st)
    | some (.Set _) => .ok (.Str "Set", st)
    | some .None => .ok (.Str "None", st)
    | some (.Fn _ _) => .ok (.Str "Fn", st)
    | some (.BuiltinFn _) => .ok (.Str "BuiltinFn", st)
    | some (.Class n _) => .ok (.Str n, st)
    | some (.Return _) => .ok (.Str "Return", st)
    | Option.none => .err "type() requires an argument"
  | "abs" =>
    match args.head? with
    | some (.Int n) => .ok (.Int n.natAbs, st)
    | some (.Float f) => .ok (.Float |f|, st)
    | _ => .err "abs() requires a numeric argument"
  | "min" =>
    match args with
    | [] => .err "min() requires at least one argument"
    | first :: rest =>
      match first with
      | .List a =>
        match st.listH.getD a [] with
        | [] => .err "min() arg is an empty list"
        | .Int n :: tail => .ok (.Int (minFold n tail), st)
        | _ :: _ => .err "min() requires list of integers"
      | .Int n => .ok (.Int (minFold n rest), st)
      | _ => .err "min() requires integers"
  | "max" =>
    match args with
    | [] => .err "max() requires at least one argument"
    | first :: rest =>
      match first with
      | .List a =>
        match st.listH.getD a [] with
        | [] => .err "max() arg is an empty list"
        | .Int n :: tail => .ok (.Int (maxFold n tail), st)
        | _ :: _ => .err "max() requires list of integers"
      | .Int n => .ok (.Int (maxFold n rest), st)
      | _ => .err "max() requires integers"
  | "sum" =>
    match args.head? with
    | some (.List a) =>
      match sumInts (st.listH.getD a []) with
      | some s => .ok (.Int s, st)
      | Option.none => .err "sum() requires list of integers"
    | _ => .err "sum() expects a list argument"
  | "sorted" =>
    match args.head? with
    | some (.List a) =>
      let l := st.listH.getD a []
      if l.all (fun v => match v with | .Int _ => true | _ => false) then
        let ints := l.filterMap (fun v => match v with
          | .Int n => some n | _ => Option.none)
        let sorted := (sortInts ints).map Value.Int
        .ok (.List st.listH.length, { st with listH := st.listH ++ [sorted] })
      else .err "sorted() requires list of integers"
    | _ => .err "sorted() expects a list argument"
  | "reversed" =>
    match args.head? with
    | some (.List a) =>
      let l := (st.listH.getD a []).reverse
      .ok (.List st.listH.length, { st with listH := st.listH ++ [l] })
    | some (.Str s) => .ok (.Str (String.mk s.data.reverse), st)
    | _ => .err "reversed() expects a list or string argument"
  | "enumerate" =>
    match args.head? with
    | some (.List a) =>
      let (items, st') := allocEnumItems st 0 (st.listH.getD a [])
      .ok (.List st'.listH.length, { st' with listH := st'.listH ++ [items] })
    | _ => .err "enumerate() expects a list argument"
  | "zip" =>
    if args.length != 2 then .err "zip() expects exactly 2 arguments"
    else
      match args with
      | [.List a, .List b] =>
        let pairs := (st.listH.getD a []).zip (st.listH.getD b [])
        let (items, st') := allocZipItems st pairs
        .ok (.List st'.listH.length, { st' with listH := st'.listH ++ [items] })
      | _ => .err "zip() expects two list arguments"
  | "filter" => .err "filter() is not yet implemented as a builtin"
  | "map" => .err "map() is not yet implemented as a builtin"
  | "fs.read_file" => .ext "filesystem read in builtin_fs_read_file"
  | "fs.write_file" => .ext "filesystem write in builtin_fs_write_file"
  | "fs.exists" => .ext "filesystem stat in builtin_fs_exists"
  | "fs.remove" => .ext "filesystem remove in builtin_fs_remove"
  | "fs.read_dir" => .ext "filesystem listing in builtin_fs_read_dir"
  | "json.parse" => .ext "serde parsing in builtin_json_parse"
  | "json.stringify" => .ext "serde serialization in builtin_json_stringify"
  | "http.get" => .ext "network request in builtin_http_get"
  | "http.post" => .ext "network request in builtin_http_post"
  | _ =>
    if "__class_".data.isPrefixOf name.data then
      let className := String.mk (name.data.drop 8)
      .ok (.Class className st.mapH.length, { st with mapH := st.mapH ++ [[]] })
    else .err ("Unknown builtin function: " ++ name)

/-! ## The evaluator (`src/interpreter.rs` `impl Interpreter`)

Every function of the mutual block pattern-matches its fuel first and passes
the predecessor to recursive calls, so the block is structurally recursive on
the fuel; `Res.timeout` therefore means "did not finish within the fuel",
never an error of the modelled program. -/

/-- Parameter binding in `call_function`: `params.iter().zip(args)` defined
one by one into the fresh call scope (callers have checked the arity). -/
def bindParams (st : St) (a : Nat) (params : List Param) (args : List Value) :
    St :=
  (params.zip args).foldl (fun s pa => envDefine s a pa.1.name pa.2) st

mutual

/-- `Interpreter::eval_expression`. -/
def evalExpr : Nat → St → Expression → Res (Value × St)
  | 0, _, _ => .timeout
  | fuel + 1, st, e =>
    match e with
    | .Literal lit => evalLiteral fuel st lit
    | .Identifier name =>
      match envGetFrom st st.curEnv name with
      | some v => .ok (v, st)
      | Option.none => .err ("Undefined variable: " ++ name)
    | .BinaryOp (.mk left op right) =>
      (evalExpr fuel st left).andThen fun (l, st₁) =>
        (evalExpr fuel st₁ right).andThen fun (r, st₂) =>
          match evalBinaryOp st₂ op l r with
          | .ok v => .ok (v, st₂)
          | .err m => .err m
          | .panic m => .panic m
          | .ext w => .ext w
          | .timeout => .timeout
    | .UnaryOp (.mk op operand) =>
      (evalExpr fuel st operand).andThen fun (v, st₁) =>
        match op with
        | .Neg =>
          match v with
          | .Int n => .ok (.Int (-n), st₁)
          | .Float f => .ok (.Float (-f), st₁)
          | _ => .err ("Cannot negate " ++ debugRepr v)
        | .Not => .ok (.Bool (!(isTruthy st₁ v)), st₁)
    | .Call (.mk func args) =>
      match func with
      | .MemberAccess (.mk object member) =>
        match object with
        | .Identifier moduleName =>
          let fullName := moduleName ++ "." ++ member
          let isModuleFn :=
            match envGetFrom st st.curEnv fullName with
            | some (.BuiltinFn _) => true
            | _ => false
          if isModuleFn then
            (evalArgs fuel st args).andThen fun (argVals, st₁) =>
              callBuiltin st₁ fullName argVals
          else
            (evalExpr fuel st object).andThen fun (obj, st₁) =>
              (evalArgs fuel st₁ args).andThen fun (argVals, st₂) =>
                callMethod st₂ obj member argVals
        | _ =>
          (evalExpr fuel st object).andThen fun (obj, st₁) =>
            (evalArgs fuel st₁ args).andThen fun (argVals, st₂) =>
              callMethod st₂ obj member argVals
      | _ =>
        (evalExpr fuel st func).andThen fun (callee, st₁) =>
          (evalArgs fuel st₁ args).andThen fun (argVals, st₂) =>
            callFunction fuel st₂ callee argVals
    | .MemberAccess (.mk object member) =>
      (evalExpr fuel st object).andThen fun (obj, st₁) =>
        match obj with
        | .Class _ fields =>
          match assocGet (st₁.mapH.getD fields []) member with
          | some v => .ok (v, st₁)
          | Option.none => .err ("Unknown member: " ++ member)
        | .Dict a =>
          match assocGet (st₁.mapH.getD a []) member with
          | some v => .ok (v, st₁)
          | Option.none => .err ("Key error: " ++ member)
        | _ => .err ("Cannot access member of " ++ debugRepr obj)
    | .Index (.mk object index) =>
      (evalExpr fuel st object).andThen fun (obj, st₁) =>
        (evalExpr fuel st₁ index).andThen fun (idx, st₂) =>
          match obj, idx with
          | .List a, .Int i =>
            if 0 ≤ i then
              match (st₂.listH.getD a []).get? i.toNat with
              | some v => .ok (v, st₂)
              | Option.none => .err "Index out of bounds"
            else .err "Index out of bounds"
          | .Str s, .Int i =>
            if 0 ≤ i then
              match s.data.get? i.toNat with
              | some c => .ok (.Str (String.mk [c]), st₂)
              | Option.none => .err "Index out of bounds"
            else .err "Index out of bounds"
          | .Dict d, .Str k =>
            match assocGet (st₂.mapH.getD d []) k with
            | some v => .ok (v, st₂)
            | Option.none => .err ("Key error: " ++ k)
          | _, _ => .err "Invalid index operation"
    | .Lambda (.mk params body) =>
      let funcDef : FunctionDef :=
        { name := "lambda"
          params := params.map (fun p => { name := p, tyAnn := Option.none })
          returnType := Option.none
          body := [Statement.Return (some body)]
          isAsync := false }
      .ok (.Fn funcDef st.curEnv, st)
    | .Await inner => evalExpr fuel st inner
    | .JsxElement el =>
      match renderJsx st el with
      | .ok s => .ok (.Str s, st)
      | .err m => .err m
      | .panic m => .panic m
      | .ext w => .ext w
      | .timeout => .timeout

/-- Left-to-right evaluation of an expression list (call arguments, list and
set literal elements). -/
def evalArgs : Nat → St → List Expression → Res (List Value × St)
  | 0, _, _ => .timeout
  | _ + 1, st, [] => .ok ([], st)
  | fuel + 1, st, e :: rest =>
    (evalExpr fuel st e).andThen fun (v, st₁) =>
      (evalArgs fuel st₁ rest).andThen fun (vs, st₂) =>
        .ok (v :: vs, st₂)

/-- `Interpreter::eval_literal`.  Collection literals evaluate their elements
left to right, then allocate a fresh shared cell. -/
def evalLiteral : Nat → St → Literal → Res (Value × St)
  | 0, _, _ => .timeout
  | fuel + 1, st, lit =>
    match lit with
    | .Int n => .ok (.Int n, st)
    | .Float f => .ok (.Float f, st)
    | .Str s => .ok (.Str s, st)
    | .Bool b => .ok (.Bool b, st)
    | .None => .ok (.None, st)
    | .List items =>
      (evalArgs fuel st items).andThen fun (vs, st₁) =>
        .ok (.List st₁.listH.length, { st₁ with listH := st₁.listH ++ [vs] })
    | .Dict items => evalDictItems fuel st items []
    | .Set items =>
      (evalArgs fuel st items).andThen fun (vs, st₁) =>
        .ok (.Set st₁.listH.length, { st₁ with listH := st₁.listH ++ [vs] })

/-- Pair loop of the dict literal: key evaluated, then value, then the
string-key check; insertion replaces duplicate keys like `HashMap::insert`. -/
def evalDictItems :
    Nat → St → List (Expression × Expression) → List (String × Value) →
    Res (Value × St)
  | 0, _, _, _ => .timeout
  | _ + 1, st, [], acc =>
      .ok (.Dict st.mapH.length, { st with mapH := st.mapH ++ [acc] })
  | fuel + 1, st, (k, v) :: rest, acc =>
    (evalExpr fuel st k).andThen fun (key, st₁) =>
      (evalExpr fuel st₁ v).andThen fun (value, st₂) =>
        match key with
        | .Str s => evalDictItems fuel st₂ rest (assocSet acc s value)
        | _ => .err "Dict keys must be strings"

/-- `Interpreter::eval_statement`. -/
def evalStmt : Nat → St → Statement → Res (ExecutionResult × St)
  | 0, _, _ => .timeout
  | fuel + 1, st, stmt =>
    match stmt with
    | .Let decl =>
      (evalExpr fuel st decl.value).andThen fun (v, st₁) =>
        .ok (.Value .None, envDefine st₁ st₁.curEnv decl.name v)
    | .Const decl =>
      (evalExpr fuel st decl.value).andThen fun (v, st₁) =>
        .ok (.Value .None, envDefine st₁ st₁.curEnv decl.name v)
    | .Assignment a =>
      (evalExpr fuel st a.value).andThen fun (v, st₁) =>
        match a.target with
        | .Identifier name =>
          match envSet st₁ name v with
          | some st₂ => .ok (.Value .None, st₂)
          | Option.none => .ok (.Value .None, envDefine st₁ st₁.curEnv name v)
        | _ => .ok (.Value .None, st₁)
    | .Return expr =>
      match expr with
      | some e =>
        (evalExpr fuel st e).andThen fun (v, st₁) => .ok (.Return v, st₁)
      | Option.none => .ok (.Return .None, st)
    | .If (.mk condition thenBlock elseBlock) =>
      (evalExpr fuel st condition).andThen fun (c, st₁) =>
        if isTruthy st₁ c then execBlock fuel st₁ thenBlock
        else
          match elseBlock with
          | some b => execBlock fuel st₁ b
          | Option.none => .ok (.Value .None, st₁)
    | .While w => evalWhile fuel st w
    | .For f => evalFor fuel st f
    | .Match (.mk value cases) =>
      (evalExpr fuel st value).andThen fun (v, st₁) =>
        matchCases fuel st₁ v cases
    | .Break => .ok (.Break, st)
    | .Continue => .ok (.Continue, st)
    | .Expression e =>
      (evalExpr fuel st e).andThen fun (v, st₁) => .ok (.Value v, st₁)
    | .State decl =>
      (evalExpr fuel st decl.value).andThen fun (v, st₁) =>
        .ok (.Value .None, envDefine st₁ st₁.curEnv decl.name v)
    | .Render _ => .ok (.Value .None, st)

/-- Statement loop shared by `if` branches and `match` case bodies: the
first non-`Value` signal stops the block and is returned; running off the
end yields `Value(None)` (the handler's final `Ok`). -/
def execBlock : Nat → St → List Statement → Res (ExecutionResult × St)
  | 0, _, _ => .timeout
  | _ + 1, st, [] => .ok (.Value .None, st)
  | fuel + 1, st, s :: rest =>
    (evalStmt fuel st s).andThen fun (r, st₁) =>
      match r with
      | .Value _ => execBlock fuel st₁ rest
      | _ => .ok (r, st₁)

/-- Case loop of `match`: first pattern that matches wins, an `Identifier`
pattern binds the scrutinee in the current scope, and a non-`Value` signal
from the body propagates. -/
def matchCases : Nat → St → Value → List MatchCase → Res (ExecutionResult × St)
  | 0, _, _, _ => .timeout
  | _ + 1, st, _, [] => .ok (.Value .None, st)
  | fuel + 1, st, v, .mk pattern body :: rest =>
    if patternMatches pattern v then
      let st₁ :=
        match pattern with
        | .Identifier name => envDefine st st.curEnv name v
        | _ => st
      (execBlock fuel st₁ body).andThen fun (r, st₂) =>
        match r with
        | .Value _ => .ok (.Value .None, st₂)
        | _ => .ok (r, st₂)
    else matchCases fuel st v rest

/-- The `while` loop: test the condition, then run the body statements. -/
def evalWhile : Nat → St → WhileStmt → Res (ExecutionResult × St)
  | 0, _, _ => .timeout
  | fuel + 1, st, w =>
    (evalExpr fuel st w.condition).andThen fun (c, st₁) =>
      if isTruthy st₁ c then whileBody fuel st₁ w w.body
      else .ok (.Value .None, st₁)

/-- Statement loop of one `while` iteration: `Return` propagates out of the
loop, `Break` ends the loop with `Value(None)`, `Continue` abandons the rest
of the iteration and goes back to the condition test, and falling off the
end also goes back to the condition test. -/
def whileBody : Nat → St → WhileStmt → List Statement → Res (ExecutionResult × St)
  | 0, _, _, _ => .timeout
  | fuel + 1, st, w, [] => evalWhile fuel st w
  | fuel + 1, st, w, s :: rest =>
    (evalStmt fuel st s).andThen fun (r, st₁) =>
      match r with
      | .Return v => .ok (.Return v, st₁)
      | .Break => .ok (.Value .None, st₁)
      | .Continue => evalWhile fuel st₁ w
      | .Value _ => whileBody fuel st₁ w rest

/-- The `for` loop: evaluate the iterator; only a `List` value iterates (its
cell is snapshot-cloned first, as `items.borrow().clone()` does); any other
value is a silent no-op. -/
def evalFor : Nat → St → ForStmt → Res (ExecutionResult × St)
  | 0, _, _ => .timeout
  | fuel + 1, st, f =>
    (evalExpr fuel st f.iterator).andThen fun (v, st₁) =>
      match v with
      | .List a => forIter fuel st₁ f (st₁.listH.getD a [])
      | _ => .ok (.Value .None, st₁)

/-- Element loop of `for`: the loop variable is defined into the current
scope (no fresh per-iteration scope), then the body runs. -/
def forIter : Nat → St → ForStmt → List Value → Res (ExecutionResult × St)
  | 0, _, _, _ => .timeout
  | _ + 1, st, _, [] => .ok (.Value .None, st)
  | fuel + 1, st, f, item :: rest =>
    forStmts fuel (envDefine st st.curEnv f.target item) f rest f.body

/-- Statement loop of one `for` iteration: `Return` propagates, `Break` ends
the whole loop with `Value(None)`, `Continue` abandons the rest of this
iteration and moves to the next element. -/
def forStmts :
    Nat → St → ForStmt → List Value → List Statement →
    Res (ExecutionResult × St)
  | 0, _, _, _, _ => .timeout
  | fuel + 1, st, f, items, [] => forIter fuel st f items
  | fuel + 1, st, f, items, s :: rest =>
    (evalStmt fuel st s).andThen fun (r, st₁) =>
      match r with
      | .Return v => .ok (.Return v, st₁)
      | .Break => .ok (.Value .None, st₁)
      | .Continue => forIter fuel st₁ f items
      | .Value _ => forStmts fuel st₁ f items rest

/-- `Interpreter::call_function`.  For a `Fn` value the fresh call scope is
allocated as a child of the closure's captured environment (not of the
caller's current environment); the allocation happens before the arity
check, exactly as in the source (an arity error discards the state anyway,
since `Res.err` carries none). -/
def callFunction : Nat → St → Value → List Value → Res (Value × St)
  | 0, _, _, _ => .timeout
  | fuel + 1, st, callee, args =>
    match callee with
    | .Fn func closureEnv =>
      let newAddr := st.envH.length
      let st₁ :=
        { st with envH := st.envH ++ [{ values := [], parent := some closureEnv }] }
      if args.length != func.params.length then
        let np := func.params.length
        let na := args.length
        .err s!"Expected {np} arguments, got {na}"
      else
        callFnBody fuel
          { bindParams st₁ newAddr func.params args with curEnv := newAddr }
          func.body st.curEnv
    | .BuiltinFn name => callBuiltin st name args
    | _ => .err ("Cannot call " ++ debugRepr callee)

/-- Body loop of `call_function`: a `Return` signal supplies the result and
restores the caller's environment; every other signal (including `Break` and
`Continue`) is ignored; falling off the end yields `None`. -/
def callFnBody : Nat → St → List Statement → Nat → Res (Value × St)
  | 0, _, _, _ => .timeout
  | _ + 1, st, [], oldEnv => .ok (.None, { st with curEnv := oldEnv })
  | fuel + 1, st, s :: rest, oldEnv =>
    (evalStmt fuel st s).andThen fun (r, st₁) =>
      match r with
      | .Return v => .ok (v, { st₁ with curEnv := oldEnv })
      | _ => callFnBody fuel st₁ rest oldEnv

/-- `Interpreter::eval_item`.  A `ServerDef` starts the blocking TCP listener
(`run_server`), an external collaborator outside the modelled core.  For a
statement item, a `Return` signal is unwrapped to its plain value ("a
top-level return is treated as a value", per the source comment). -/
def evalItem : Nat → St → Item → Res (Value × St)
  | 0, _, _ => .timeout
  | fuel + 1, st, item =>
    match item with
    | .FunctionDef f =>
        .ok (.None, envDefine st st.curEnv f.name (.Fn f st.curEnv))
    | .ClassDef c =>
        .ok (.None,
          envDefine st st.curEnv c.name (.BuiltinFn ("__class_" ++ c.name)))
    | .ComponentDef c =>
        .ok (.None,
          envDefine st st.curEnv c.name (.BuiltinFn ("__component_" ++ c.name)))
    | .ServerDef _ => .ext "TCP listener loop in run_server"
    | .Import _ => .ok (.None, st)
    | .Statement s =>
      (evalStmt fuel st s).andThen fun (r, st₁) =>
        match r with
        | .Value v => .ok (v, st₁)
        | .Return v => .ok (v, st₁)
        | _ => .ok (.None, st₁)

/-- Item loop of `Interpreter::run`: evaluate items in order, keeping the
last item's value; the `Value::Return` short-circuit check is transcribed
from the source, although nothing in the evaluator ever constructs a
`Value.Return`, so it can only fire on hand-crafted states. -/
def runItems : Nat → St → List Item → Value → Res (Value × St)
  | 0, _, _, _ => .timeout
  | _ + 1, st, [], result => .ok (result, st)
  | fuel + 1, st, item :: rest, _ =>
    (evalItem fuel st item).andThen fun (v, st₁) =>
      match v with
      | .Return inner => .ok (inner, st₁)
      | _ => runItems fuel st₁ rest v

end

/-- The builtin names registered by `Interpreter::new`, in source order. -/
def builtinNames : List String :=
  ["print", "println", "len", "range", "input", "str", "int", "float", "type",
   "abs", "min", "max", "sum", "sorted", "reversed", "enumerate", "zip",
   "fs.read_file", "fs.write_file", "fs.exists", "fs.remove", "fs.read_dir",
   "json.parse", "json.stringify", "http.get", "http.post"]

/-- `Interpreter::new`: one root scope holding a `BuiltinFn` tag per
recognized builtin name, empty heaps, empty output buffer. -/
def initialSt : St :=
  { envH := [{ values := builtinNames.map (fun n => (n, Value.BuiltinFn n))
               parent := Option.none }]
    listH := []
    mapH := []
    curEnv := 0
    output := [] }

/-- `Interpreter::run`: evaluate the items in order starting from
`Value::None`. -/
def run (fuel : Nat) (st : St) (program : Program) : Res (Value × St) :=
  runItems fuel st program.items .None

/-! ## The type checker (`src/typechecker.rs`)

The checker walks the AST threading a scope stack and an error list; it
never aborts.  `TypeChecker::check` wraps its accumulated list in `Ok`
unconditionally (the `Result` in its signature exists only for the `miette`
interface), so the checker as a whole is a total function to a string
list. -/

/-- Inferred types (`typechecker.rs` `TypeInfo`). -/
inductive TypeInfo where
  | Int
  | Float
  | Bool
  | Str
  | None
  | List (inner : TypeInfo)
  | Fn (params : List TypeInfo) (ret : TypeInfo)
  | Class (name : String)
  | Unknown
  | Error
deriving BEq

mutual

/-- Abbreviated `derive(Debug)` rendering of `TypeInfo`, used inside
diagnostic text; no verified claim inspects these particular strings. -/
def tiRepr : TypeInfo → String
  | .Int => "Int"
  | .Float => "Float"
  | .Bool => "Bool"
  | .Str => "Str"
  | .None => "None"
  | .List inner => "List(" ++ tiRepr inner ++ ")"
  | .Fn params ret =>
      "Fn \x7b params: [" ++ String.intercalate ", " (tiReprList params)
        ++ "], ret: " ++ tiRepr ret ++ " \x7d"
  | .Class n => "Class(\"" ++ n ++ "\")"
  | .Unknown => "Unknown"
  | .Error => "Error"

/-- Element loop for `tiRepr` over a parameter list. -/
def tiReprList : List TypeInfo → List String
  | [] => []
  | t :: ts => tiRepr t :: tiReprList ts

end

/-- Scope stack (`typechecker.rs` `TypeEnv`).  Rust keeps a `Vec` with the
innermost scope at the end, searching from the end; here the innermost scope
is the head of the list, so the search order is identical. -/
structure TypeEnv where
  scopes : List (List (String × TypeInfo))

/-- `TypeEnv::push_scope`. -/
def TypeEnv.pushScope (te : TypeEnv) : TypeEnv :=
  { scopes := [] :: te.scopes }

/-- `TypeEnv::pop_scope`. -/
def TypeEnv.popScope (te : TypeEnv) : TypeEnv :=
  { scopes := te.scopes.tail }

/-- `TypeEnv::define`: writes into the innermost scope (no-op on an empty
stack, like the `if let Some(scope)` in the source). -/
def TypeEnv.define (te : TypeEnv) (name : String) (ty : TypeInfo) : TypeEnv :=
  match te.scopes with
  | [] => te
  | s :: rest => { scopes := assocSet s name ty :: rest }

/-- Scope-stack search for `TypeEnv::lookup`. -/
def lookupScopes : List (List (String × TypeInfo)) → String → Option TypeInfo
  | [], _ => Option.none
  | s :: rest, name =>
    match assocGet s name with
    | some ty => some ty
    | Option.none => lookupScopes rest name

/-- `TypeEnv::lookup`: innermost scope first (Rust iterates the `Vec` in
reverse). -/
def TypeEnv.lookup (te : TypeEnv) (name : String) : Option TypeInfo :=
  lookupScopes te.scopes name

/-- The permissive builtin signatures seeded into the global type scope by
`TypeEnv::new` (`any_fn`, `any_to_int`, ...). -/
def anyFn : TypeInfo := .Fn [.Unknown] .Unknown

def anyToInt : TypeInfo := .Fn [.Unknown] .Int

def anyToStr : TypeInfo := .Fn [.Unknown] .Str

def anyToList : TypeInfo := .Fn [.Unknown] (.List .Unknown)

def anyToBool : TypeInfo := .Fn [.Unknown] .Bool

def anyToFloat : TypeInfo := .Fn [.Unknown] .Float

/-- The global scope of `TypeEnv::new`, in source insertion order (a
`HashMap` in Rust, so only membership matters). -/
def typeEnvGlobal : List (String × TypeInfo) :=
  [("print", anyFn), ("println", anyFn), ("input", anyToStr),
   ("len", anyToInt), ("range", anyToList), ("sum", anyToInt),
   ("sorted", anyToList), ("reversed", anyToList), ("enumerate", anyToList),
   ("zip", anyToList),
   ("str", anyToStr), ("int", anyToInt), ("float", anyToFloat),
   ("type", anyToStr), ("bool", anyToBool),
   ("abs", anyToInt), ("min", anyToInt), ("max", anyToInt),
   ("fs.read_file", anyToStr), ("fs.write_file", anyFn),
   ("fs.exists", anyToBool), ("fs.remove", anyFn), ("fs.read_dir", anyToList),
   ("json.parse", .Fn [.Str] .Unknown), ("json.stringify", anyToStr),
   ("http.get", anyToStr), ("http.post", anyToStr),
   ("base64.encode", anyToStr), ("base64.decode", anyToStr),
   ("sqlite.open", anyToInt), ("sqlite.execute", anyToInt),
   ("sqlite.query", anyFn), ("sqlite.close", anyFn)]

/-- `TypeEnv::new`. -/
def TypeEnv.new : TypeEnv :=
  { scopes := [typeEnvGlobal] }

/-- Checker state (`typechecker.rs` `TypeChecker`): scope stack plus the
accumulated diagnostics, in emission order. -/
structure TypeChecker where
  env : TypeEnv
  errors : List String

/-- `TypeChecker::ast_type_to_type_info`, on the underlying `Ty`. -/
def tyToTypeInfo : Ty → TypeInfo
  | .Int => .Int
  | .Float => .Float
  | .Bool => .Bool
  | .Str => .Str
  | .List inner => .List (tyToTypeInfo inner)
  | .Dict _ _ => .Unknown
  | .Set _ => .Unknown
  | .Fn _ _ => .Unknown
  | .Custom name => .Class name

/-- `TypeChecker::ast_type_to_type_info` (absence of an annotation yields
`Unknown`). -/
def astTypeToTypeInfo : Option Ty → TypeInfo
  | some t => tyToTypeInfo t
  | Option.none => .Unknown

/-- `TypeChecker::infer_literal` (non-recursive: element types of collection
literals are not inspected). -/
def inferLiteral : Literal → TypeInfo
  | .Int _ => .Int
  | .Float _ => .Float
  | .Str _ => .Str
  | .Bool _ => .Bool
  | .None => .None
  | .List _ => .List .Unknown
  | .Dict _ => .Unknown
  | .Set _ => .Unknown

/-- `TypeChecker::infer_binary_op`. -/
def inferBinaryOp (op : BinaryOp) (left right : TypeInfo) : TypeInfo :=
  match op with
  | .Add | .Sub | .Mul | .Div | .Mod =>
    if left == .Str && right == .Str &&
        (match op with | .Add => true | _ => false) then .Str
    else if (left == .Int || left == .Unknown) &&
        (right == .Int || right == .Unknown) then .Int
    else if left == .Float || right == .Float then .Float
    else .Unknown
  | .Eq | .Ne | .Lt | .Gt | .Le | .Ge | .In => .Bool
  | .And | .Or => .Bool

/-- `TypeChecker::types_compatible`: `Unknown` is compatible with
everything. -/
def typesCompatible (expected actual : TypeInfo) : Bool :=
  if expected == .Unknown || actual == .Unknown then true
  else expected == actual

mutual

/-- `TypeChecker::check_item`. -/
def checkItem (tc : TypeChecker) : Item → TypeChecker
  | .FunctionDef f => checkFunctionDef tc f
  | .ClassDef c => checkClassDef tc c
  | .ComponentDef c => checkComponentDef tc c
  | .ServerDef s => checkServerDef tc s
  | .Import _ => tc
  | .Statement s => checkStatement tc s

/-- Item loop of `TypeChecker::check`. -/
def checkItems (tc : TypeChecker) : List Item → TypeChecker
  | [] => tc
  | item :: rest => checkItems (checkItem tc item) rest

/-- `TypeChecker::check_function_def`. -/
def checkFunctionDef (tc : TypeChecker) (f : FunctionDef) : TypeChecker :=
  let paramTypes := f.params.map (fun p => astTypeToTypeInfo p.tyAnn)
  let retType := astTypeToTypeInfo f.returnType
  let tc₁ := { tc with env := tc.env.define f.name (.Fn paramTypes retType) }
  let tc₂ := { tc₁ with env := tc₁.env.pushScope }
  let tc₃ :=
    { tc₂ with
      env := (f.params.zip paramTypes).foldl
        (fun e pt => e.define pt.1.name pt.2) tc₂.env }
  let tc₄ := checkStmts tc₃ f.body
  { tc₄ with env := tc₄.env.popScope }

/-- `TypeChecker::check_class_def`. -/
def checkClassDef (tc : TypeChecker) (c : ClassDef) : TypeChecker :=
  let tc₁ := { tc with env := tc.env.define c.name (.Class c.name) }
  let tc₂ := { tc₁ with env := tc₁.env.pushScope }
  let tc₃ := { tc₂ with env := tc₂.env.define "self" (.Class c.name) }
  let tc₄ := checkClassBody tc₃ c.body
  { tc₄ with env := tc₄.env.popScope }

/-- Body loop of `check_class_def`. -/
def checkClassBody (tc : TypeChecker) : List ClassBodyItem → TypeChecker
  | [] => tc
  | .Field f :: rest =>
    let tc₁ := { tc with env := tc.env.define f.name (astTypeToTypeInfo (some f.tyAnn)) }
    checkClassBody tc₁ rest
  | .Method m :: rest => checkClassBody (checkFunctionDef tc m) rest

/-- `TypeChecker::check_component_def`. -/
def checkComponentDef (tc : TypeChecker) (c : ComponentDef) : TypeChecker :=
  let tc₁ := { tc with env := tc.env.define c.name (.Class c.name) }
  let tc₂ := { tc₁ with env := tc₁.env.pushScope }
  let tc₃ := { tc₂ with env := tc₂.env.define "self" (.Class c.name) }
  let tc₄ := checkComponentBody tc₃ c.body
  { tc₄ with env := tc₄.env.popScope }

/-- Body loop of `check_component_def`. -/
def checkComponentBody (tc : TypeChecker) : List ComponentBodyItem → TypeChecker
  | [] => tc
  | .State s :: rest =>
    let (ty, tc₁) := inferExpression tc s.value
    checkComponentBody { tc₁ with env := tc₁.env.define s.name ty } rest
  | .Method m :: rest => checkComponentBody (checkFunctionDef tc m) rest
  | .Render r :: rest =>
    match r with
    | .mk body => checkComponentBody (checkStmts tc body) rest

/-- `TypeChecker::check_server_def`. -/
def checkServerDef (tc : TypeChecker) (s : ServerDef) : TypeChecker :=
  let tc₁ := { tc with env := tc.env.define s.name (.Class s.name) }
  let tc₂ := { tc₁ with env := tc₁.env.pushScope }
  let tc₃ := checkServerBody tc₂ s.body
  { tc₃ with env := tc₃.env.popScope }

/-- Body loop of `check_server_def`. -/
def checkServerBody (tc : TypeChecker) : List ServerBodyItem → TypeChecker
  | [] => tc
  | .Route r :: rest => checkServerBody (checkStmts tc r.body) rest

/-- `TypeChecker::check_statement`. -/
def checkStatement (tc : TypeChecker) : Statement → TypeChecker
  | .Let decl =>
    let (ty, tc₁) := inferExpression tc decl.value
    { tc₁ with env := tc₁.env.define decl.name ty }
  | .Const decl =>
    let (ty, tc₁) := inferExpression tc decl.value
    { tc₁ with env := tc₁.env.define decl.name ty }
  | .Assignment a =>
    let (targetTy, tc₁) := inferExpression tc a.target
    let (valueTy, tc₂) := inferExpression tc₁ a.value
    if typesCompatible targetTy valueTy then tc₂
    else
      { tc₂ with errors := tc₂.errors ++
          ["Type mismatch in assignment: expected " ++ tiRepr targetTy
            ++ ", got " ++ tiRepr valueTy] }
  | .Return expr =>
    match expr with
    | some e => (inferExpression tc e).2
    | Option.none => tc
  | .If (.mk condition thenBlock elseBlock) =>
    let (condTy, tc₁) := inferExpression tc condition
    let tc₂ :=
      if condTy != .Bool && condTy != .Unknown then
        { tc₁ with errors := tc₁.errors ++
            ["If condition must be Bool, got " ++ tiRepr condTy] }
      else tc₁
    let tc₃ := { tc₂ with env := tc₂.env.pushScope }
    let tc₄ := checkStmts tc₃ thenBlock
    let tc₅ := { tc₄ with env := tc₄.env.popScope }
    match elseBlock with
    | some b =>
      let tc₆ := { tc₅ with env := tc₅.env.pushScope }
      let tc₇ := checkStmts tc₆ b
      { tc₇ with env := tc₇.env.popScope }
    | Option.none => tc₅
  | .While (.mk condition body) =>
    let (condTy, tc₁) := inferExpression tc condition
    let tc₂ :=
      if condTy != .Bool && condTy != .Unknown then
        { tc₁ with errors := tc₁.errors ++
            ["While condition must be Bool, got " ++ tiRepr condTy] }
      else tc₁
    let tc₃ := { tc₂ with env := tc₂.env.pushScope }
    let tc₄ := checkStmts tc₃ body
    { tc₄ with env := tc₄.env.popScope }
  | .For (.mk target iterator body) =>
    let (iterTy, tc₁) := inferExpression tc iterator
    let elemTy := match iterTy with | .List inner => inner | _ => TypeInfo.Unknown
    let tc₂ := { tc₁ with env := tc₁.env.pushScope }
    let tc₃ := { tc₂ with env := tc₂.env.define target elemTy }
    let tc₄ := checkStmts tc₃ body
    { tc₄ with env := tc₄.env.popScope }
  | .Match (.mk value cases) =>
    let tc₁ := (inferExpression tc value).2
    checkCases tc₁ cases
  | .Break => tc
  | .Continue => tc
  | .Expression e => (inferExpression tc e).2
  | .State decl =>
    let (ty, tc₁) := inferExpression tc decl.value
    { tc₁ with env := tc₁.env.define decl.name ty }
  | .Render r =>
    match r with
    | .mk body => checkStmts tc body

/-- Statement loop used throughout the checker. -/
def checkStmts (tc : TypeChecker) : List Statement → TypeChecker
  | [] => tc
  | s :: rest => checkStmts (checkStatement tc s) rest

/-- Case loop of `check_statement` for `match`. -/
def checkCases (tc : TypeChecker) : List MatchCase → TypeChecker
  | [] => tc
  | .mk _ body :: rest =>
    let tc₁ := { tc with env := tc.env.pushScope }
    let tc₂ := checkStmts tc₁ body
    checkCases { tc₂ with env := tc₂.env.popScope } rest

/-- `TypeChecker::infer_expression`. -/
def inferExpression (tc : TypeChecker) : Expression → (TypeInfo × TypeChecker)
  | .Literal lit => (inferLiteral lit, tc)
  | .Identifier name =>
    match tc.env.lookup name with
    | some ty => (ty, tc)
    | Option.none =>
      (.Error, { tc with errors := tc.errors ++ ["Undefined variable: " ++ name] })
  | .BinaryOp (.mk left op right) =>
    let (l, tc₁) := inferExpression tc left
    let (r, tc₂) := inferExpression tc₁ right
    (inferBinaryOp op l r, tc₂)
  | .UnaryOp (.mk op operand) =>
    let (t, tc₁) := inferExpression tc operand
    match op with
    | .Neg => (t, tc₁)
    | .Not => (.Bool, tc₁)
  | .Call (.mk func args) =>
    let moduleLookup :=
      match func with
      | .MemberAccess (.mk (.Identifier moduleName) member) =>
          tc.env.lookup (moduleName ++ "." ++ member)
      | _ => Option.none
    match moduleLookup with
    | some ty =>
      (match ty with | .Fn _ ret => ret | _ => TypeInfo.Unknown, tc)
    | Option.none =>
      let _ := args
      let (funcTy, tc₁) := inferExpression tc func
      match funcTy with
      | .Fn _ ret => (ret, tc₁)
      | .Class name => (.Class name, tc₁)
      | .Unknown => (.Unknown, tc₁)
      | _ =>
        (.Error, { tc₁ with errors := tc₁.errors ++
            ["Attempt to call non-function: " ++ tiRepr funcTy] })
  | .MemberAccess (.mk object _) =>
    let (_, tc₁) := inferExpression tc object
    (.Unknown, tc₁)
  | .Index (.mk object index) =>
    let (objTy, tc₁) := inferExpression tc object
    let (_, tc₂) := inferExpression tc₁ index
    match objTy with
    | .List inner => (inner, tc₂)
    | _ => (.Unknown, tc₂)
  | .Lambda _ => (.Unknown, tc)
  | .Await inner => inferExpression tc inner
  | .JsxElement _ => (.Unknown, tc)

end

/-- `TypeChecker::check`: walk the items, return the accumulated
diagnostics.  In the source this is wrapped in `Ok(...)` unconditionally, so
the `Err` arm at its call sites is dead. -/
def check (program : Program) : List String :=
  (checkItems { env := TypeEnv.new, errors := [] } program.items).errors

/-! ## The `run_file` driver (`src/main.rs`) -/

/-- Observable outcome of `run_file` on a program that parsed successfully:
either the diagnostics were printed and the function returned without
constructing an interpreter, or the interpreter ran. -/
inductive RunFileOutcome where
  | TypeErrorsReported (errs : List String)
  | Ran (result : Res (Value × St))

/-- `main.rs` `run_file`, from the point where the parse succeeded: run the
checker; when its list is non-empty, print it and return (the interpreter is
never constructed); when it is empty, construct an interpreter and run the
program.  (`checker.check` never returns `Err`, so that arm of the source is
dead code.) -/
def runFileOn (fuel : Nat) (program : Program) : RunFileOutcome :=
  let errs := check program
  if errs.isEmpty then .Ran (run fuel initialSt program)
  else .TypeErrorsReported errs

/-! ## Observation helpers and concrete test programs -/

/-- The value component of a successful run. -/
def resValue : Res (Value × St) → Option Value
  | .ok (v, _) => some v
  | _ => Option.none

/-- The error message of a failed run. -/
def resErrMsg : Res (Value × St) → Option String
  | .err m => some m
  | _ => Option.none

/-- When a run produces a list value, the contents of the heap cell it
points to. -/
def resListCell : Res (Value × St) → Option (List Value)
  | .ok (.List a, st) => st.listH.get? a
  | _ => Option.none

/-- A top-level `return 5`. -/
def stmtRet5 : Statement := .Return (some (.Literal (.Int 5)))

/-- `return 5` followed by the expression statement `7`. -/
def progReturnThenSeven : Program :=
  ⟨[.Statement stmtRet5, .Statement (.Expression (.Literal (.Int 7)))]⟩

/-- The undefined identifier `zzz` as a whole program. -/
def progUndefVar : Program := ⟨[.Statement (.Expression (.Identifier "zzz"))]⟩

/-- The markup element `<a href="x">hi</a>`. -/
def aHrefElem : JsxElement :=
  .mk "a" [.mk "href" (some (.Literal (.Str "x")))] [.Text "hi"]

/-- The markup element `<b/>`. -/
def bEmptyElem : JsxElement := .mk "b" [] []

/-- A markup element with a text child containing `&`. -/
def ampTextElem : JsxElement := .mk "p" [] [.Text "a&b"]

/-- `def make` with body `let n = 10; return () -> n`: the returned inner
function is created inside `make`'s call scope, so it closes over `n`. -/
def makeDef : FunctionDef :=
  { name := "make"
    params := []
    returnType := Option.none
    body := [.Let { name := "n", value := .Literal (.Int 10), tyAnn := Option.none },
             .Return (some (.Lambda (.mk [] (.Identifier "n"))))]
    isAsync := false }

/-- `def make ...; let g = make(); g()` — calling the escaped inner function
after `make` has returned. -/
def progMakeInner : Program :=
  ⟨[.FunctionDef makeDef,
    .Statement (.Let { name := "g", value := .Call (.mk (.Identifier "make") [])
                       tyAnn := Option.none }),
    .Statement (.Expression (.Call (.mk (.Identifier "g") [])))]⟩

/-- `let x = 0; while true { break; x = 99 }; x`. -/
def progWhileBreak : Program :=
  ⟨[.Statement (.Let { name := "x", value := .Literal (.Int 0), tyAnn := Option.none }),
    .Statement (.While (.mk (.Literal (.Bool true))
      [.Break,
       .Assignment { target := .Identifier "x", value := .Literal (.Int 99) }])),
    .Statement (.Expression (.Identifier "x"))]⟩

/-- `let s = 0; for i in [1, 2, 3] { continue; s = 99 }; s`. -/
def progForContinue : Program :=
  ⟨[.Statement (.Let { name := "s", value := .Literal (.Int 0), tyAnn := Option.none }),
    .Statement (.For (.mk "i"
      (.Literal (.List [.Literal (.Int 1), .Literal (.Int 2), .Literal (.Int 3)]))
      [.Continue,
       .Assignment { target := .Identifier "s", value := .Literal (.Int 99) }])),
    .Statement (.Expression (.Identifier "s"))]⟩

/-- `for i in [1, 2, 3] { continue }; i` — after the loop, `i` holds the
last element, showing that `continue` moved to the next element rather than
ending the loop. -/
def progForVisitsAll : Program :=
  ⟨[.Statement (.For (.mk "i"
      (.Literal (.List [.Literal (.Int 1), .Literal (.Int 2), .Literal (.Int 3)]))
      [.Continue])),
    .Statement (.Expression (.Identifier "i"))]⟩

/-- The aliasing law program: `let a = [1]; let b = a; a.append(2); b`. -/
def progAlias : Program :=
  ⟨[.Statement (.Let { name := "a", value := .Literal (.List [.Literal (.Int 1)])
                       tyAnn := Option.none }),
    .Statement (.Let { name := "b", value := .Identifier "a", tyAnn := Option.none }),
    .Statement (.Expression (.Call
      (.mk (.MemberAccess (.mk (.Identifier "a") "append")) [.Literal (.Int 2)]))),
    .Statement (.Expression (.Identifier "b"))]⟩

/-- `let xs = [1]; let ys = [5]; xs[0] = ys.append(2); xs` — the indexed
write is dropped. -/
def progDropIndexWrite : Program :=
  ⟨[.Statement (.Let { name := "xs", value := .Literal (.List [.Literal (.Int 1)])
                       tyAnn := Option.none }),
    .Statement (.Let { name := "ys", value := .Literal (.List [.Literal (.Int 5)])
                       tyAnn := Option.none }),
    .Statement (.Assignment
      { target := .Index (.mk (.Identifier "xs") (.Literal (.Int 0)))
        value := .Call (.mk (.MemberAccess (.mk (.Identifier "ys") "append"))
                          [.Literal (.Int 2)]) }),
    .Statement (.Expression (.Identifier "xs"))]⟩

/-- The same three statements, reading `ys` instead: the right-hand side's
side effect did happen even though the write was dropped. -/
def progDropWriteSideEffect : Program :=
  ⟨[.Statement (.Let { name := "xs", value := .Literal (.List [.Literal (.Int 1)])
                       tyAnn := Option.none }),
    .Statement (.Let { name := "ys", value := .Literal (.List [.Literal (.Int 5)])
                       tyAnn := Option.none }),
    .Statement (.Assignment
      { target := .Index (.mk (.Identifier "xs") (.Literal (.Int 0)))
        value := .Call (.mk (.MemberAccess (.mk (.Identifier "ys") "append"))
                          [.Literal (.Int 2)]) }),
    .Statement (.Expression (.Identifier "ys"))]⟩

/-- `class P; let o = P(); o.x = 5; o.x` — the member write is dropped, so
the subsequent read fails with the unknown-member error. -/
def progMemberWriteDropped : Program :=
  ⟨[.ClassDef { name := "P", parent := Option.none, body := [] },
    .Statement (.Let { name := "o", value := .Call (.mk (.Identifier "P") [])
                       tyAnn := Option.none }),
    .Statement (.Assignment
      { target := .MemberAccess (.mk (.Identifier "o") "x")
        value := .Literal (.Int 5) }),
    .Statement (.Expression (.MemberAccess (.mk (.Identifier "o") "x")))]⟩

/-- `true or zzz` as a whole program: the left operand alone would decide
the disjunction, but `zzz` is still evaluated. -/
def progOrUndef : Program :=
  ⟨[.Statement (.Expression (.BinaryOp
      (.mk (.Literal (.Bool true)) .Or (.Identifier "zzz"))))]⟩

/-- `y = 5; y` with `y` never declared. -/
def progAssignUnbound : Program :=
  ⟨[.Statement (.Assignment { target := .Identifier "y", value := .Literal (.Int 5) }),
    .Statement (.Expression (.Identifier "y"))]⟩

/-- A closure whose whole body is `return x`: the smallest function whose
result is exactly one environment-chain lookup. -/
def retIdFn (fname x : String) : FunctionDef :=
  { name := fname
    params := []
    returnType := Option.none
    body := [Statement.Return (some (Expression.Identifier x))]
    isAsync := false }

/-! ## Supporting lemmas -/

theorem listModify_length {α : Type} (l : List α) (n : Nat) (f : α → α) :
    (listModify l n f).length = l.length := by
  induction l generalizing n with
  | nil => rfl
  | cons x xs ih =>
    cases n with
    | zero => rfl
    | succ m =>
      show (listModify xs m f).length + 1 = xs.length + 1
      rw [ih m]

theorem get?_listModify_self {α : Type} (l : List α) (n : Nat) (f : α → α)
    (x : α) (h : l.get? n = some x) :
    (listModify l n f).get? n = some (f x) := by
  induction l generalizing n with
  | nil => exact Option.noConfusion h
  | cons y ys ih =>
    cases n with
    | zero =>
      have hy : y = x := Option.some.inj h
      subst hy
      rfl
    | succ m => exact ih m h

theorem get?_listModify_other {α : Type} (l : List α) (n m : Nat) (f : α → α)
    (h : m ≠ n) : (listModify l n f).get? m = l.get? m := by
  induction l generalizing n m with
  | nil => rfl
  | cons y ys ih =>
    cases n with
    | zero =>
      cases m with
      | zero => exact absurd rfl h
      | succ k => rfl
    | succ j =>
      cases m with
      | zero => rfl
      | succ k => exact ih j k (fun hk => h (congrArg Nat.succ hk))

theorem assocGet_assocSet_same {α : Type} (l : List (String × α)) (k : String)
    (v : α) : assocGet (assocSet l k v) k = some v := by
  induction l with
  | nil => simp [assocSet, assocGet]
  | cons p rest ih =>
    by_cases hk : p.1 = k
    · simp [assocSet, assocGet, hk]
    · simp [assocSet, assocGet, hk, ih]

theorem assocGet_none_assocHas {α : Type} (l : List (String × α)) (k : String)
    (h : assocGet l k = Option.none) : assocHas l k = false := by
  induction l with
  | nil => rfl
  | cons p rest ih =>
    by_cases hk : p.1 = k
    · simp [assocGet, hk] at h
    · simp only [assocGet, hk, if_neg, ite_false] at h
      simp only [assocHas, hk, if_neg, ite_false]
      exact ih h

theorem envSetAux_none (h : List Env) (fuel : Nat) (a : Nat) (name : String)
    (v : Value) (hget : envGetAux h fuel a name = Option.none) :
    envSetAux h fuel a name v = Option.none := by
  induction fuel generalizing a with
  | zero => rfl
  | succ n ih =>
    simp only [envGetAux] at hget
    simp only [envSetAux]
    cases he : h.get? a with
    | none => simp only [he]
    | some e =>
      simp only [he] at hget ⊢
      cases hg : assocGet e.values name with
      | some w => simp [hg] at hget
      | none =>
        simp only [hg] at hget
        have hhas : assocHas e.values name = false :=
          assocGet_none_assocHas e.values name hg
        rw [hhas]
        simp only [Bool.false_eq_true, if_false]
        cases hp : e.parent with
        | none => rfl
        | some p =>
          simp only [hp] at hget
          exact ih p hget

/-- Outcome shape of a loop statement: normal completion with no value, or a
propagating return — never a `Break` or `Continue`. -/
def loopSigOk (r : ExecutionResult) : Prop :=
  r = .Value .None ∨ ∃ v, r = .Return v

theorem while_sig (fuel : Nat) :
    (∀ st w r st', evalWhile fuel st w = .ok (r, st') → loopSigOk r) ∧
    (∀ st w stmts r st', whileBody fuel st w stmts = .ok (r, st') → loopSigOk r) := by
  induction fuel with
  | zero =>
    constructor
    · intro st w r st' hr; exact Res.noConfusion hr
    · intro st w stmts r st' hr; exact Res.noConfusion hr
  | succ n ih =>
    constructor
    · intro st w r st' hr
      obtain ⟨cond, body⟩ := w
      simp only [evalWhile, WhileStmt.condition, WhileStmt.body] at hr
      cases hc : evalExpr n st cond with
      | ok p =>
        obtain ⟨c, st₁⟩ := p
        simp only [hc, Res.andThen] at hr
        by_cases ht : isTruthy st₁ c
        · rw [if_pos ht] at hr
          exact ih.2 st₁ (.mk cond body) body r st' hr
        · rw [if_neg ht] at hr
          cases hr
          exact Or.inl rfl
      | err m => simp [hc] at hr
      | panic m => simp [hc] at hr
      | ext wht => simp [hc] at hr
      | timeout => simp [hc] at hr
    · intro st w stmts r st' hr
      cases stmts with
      | nil =>
        simp only [whileBody] at hr
        exact ih.1 st w r st' hr
      | cons s rest =>
        simp only [whileBody] at hr
        cases hs : evalStmt n st s with
        | ok p =>
          obtain ⟨r₀, st₁⟩ := p
          simp only [hs, Res.andThen] at hr
          cases r₀ with
          | Value v => exact ih.2 st₁ w rest r st' hr
          | Return v => cases hr; exact Or.inr ⟨v, rfl⟩
          | Break => cases hr; exact Or.inl rfl
          | Continue => exact ih.1 st₁ w r st' hr
        | err m => simp [hs] at hr
        | panic m => simp [hs] at hr
        | ext wht => simp [hs] at hr
        | timeout => simp [hs] at hr

theorem for_sig (fuel : Nat) :
    (∀ st f r st', evalFor fuel st f = .ok (r, st') → loopSigOk r) ∧
    (∀ st f items r st', forIter fuel st f items = .ok (r, st') → loopSigOk r) ∧
    (∀ st f items stmts r st',
        forStmts fuel st f items stmts = .ok (r, st') → loopSigOk r) := by
  induction fuel with
  | zero =>
    refine ⟨?_, ?_, ?_⟩
    · intro st f r st' hr; exact Res.noConfusion hr
    · intro st f items r st' hr; exact Res.noConfusion hr
    · intro st f items stmts r st' hr; exact Res.noConfusion hr
  | succ n ih =>
    refine ⟨?_, ?_, ?_⟩
    · intro st f r st' hr
      obtain ⟨tgt, iter, body⟩ := f
      simp only [evalFor, ForStmt.iterator] at hr
      cases hc : evalExpr n st iter with
      | ok p =>
        obtain ⟨v, st₁⟩ := p
        simp only [hc, Res.andThen] at hr
        cases v with
        | List a =>
            exact ih.2.1 st₁ (.mk tgt iter body) (st₁.listH.getD a []) r st' hr
        | Int m => cases hr; exact Or.inl rfl
        | Float q => cases hr; exact Or.inl rfl
        | Str s => cases hr; exact Or.inl rfl
        | Bool b => cases hr; exact Or.inl rfl
        | None => cases hr; exact Or.inl rfl
        | Fn fd e => cases hr; exact Or.inl rfl
        | BuiltinFn nm => cases hr; exact Or.inl rfl
        | Class nm flds => cases hr; exact Or.inl rfl
        | Dict a => cases hr; exact Or.inl rfl
        | Set a => cases hr; exact Or.inl rfl
        | Return v => cases hr; exact Or.inl rfl
      | err m => simp [hc] at hr
      | panic m => simp [hc] at hr
      | ext wht => simp [hc] at hr
      | timeout => simp [hc] at hr
    · intro st f items r st' hr
      obtain ⟨tgt, iter, body⟩ := f
      cases items with
      | nil =>
        cases hr
        exact Or.inl rfl
      | cons item rest =>
        simp only [forIter, ForStmt.target, ForStmt.body] at hr
        exact ih.2.2 _ (.mk tgt iter body) rest body r st' hr
    · intro st f items stmts r st' hr
      cases stmts with
      | nil =>
        simp only [forStmts] at hr
        exact ih.2.1 st f items r st' hr
      | cons s rest =>
        simp only [forStmts] at hr
        cases hs : evalStmt n st s with
        | ok p =>
          obtain ⟨r₀, st₁⟩ := p
          simp only [hs, Res.andThen] at hr
          cases r₀ with
          | Value v => exact ih.2.2 st₁ f items rest r st' hr
          | Return v => cases hr; exact Or.inr ⟨v, rfl⟩
          | Break => cases hr; exact Or.inl rfl
          | Continue => exact ih.2.1 st₁ f items r st' hr
        | err m => simp [hs] at hr
        | panic m => simp [hs] at hr
        | ext wht => simp [hs] at hr
        | timeout => simp [hs] at hr

/-! ## Claim theorems -/

/-- C1: the claim (and the spec) say evaluating `%` with a zero right
operand is a runtime error carried as a descriptive failure string, exactly
like integer division by zero, never a process crash.  In
`eval_binary_op` the `Div` arm guards the zero divisor but the `Mod` arm
computes `a % b` unguarded, which in Rust is the remainder-by-zero panic — a
process abort, not an error string.  This theorem evaluates the code at the
failing input `5 % 0`, alongside the guarded `5 / 0` and a well-defined
`7 % 3`. -/
theorem C1_mod_by_zero_is_panic_not_error_string :
    evalBinaryOp initialSt .Mod (.Int 5) (.Int 0)
      = .panic "attempt to calculate the remainder with a divisor of zero" ∧
    evalBinaryOp initialSt .Div (.Int 5) (.Int 0) = .err "Division by zero" ∧
    evalBinaryOp initialSt .Mod (.Int 7) (.Int 3) = .ok (.Int 1) :=
  ⟨rfl, rfl, rfl⟩

/-- C2 counterexample: on the program `return 5; 7`, `run` yields `7`, not
the returned `5` — the second top-level item was evaluated and its value
became the result, so a top-level return does not short-circuit the
program. -/
theorem C2_counterexample_return_not_shortcircuit :
    resValue (run 10 initialSt progReturnThenSeven) = some (.Int 7) ∧
    resValue (run 10 initialSt progReturnThenSeven) ≠ some (.Int 5) := by
  refine ⟨rfl, ?_⟩
  intro hcontra
  rw [show resValue (run 10 initialSt progReturnThenSeven)
        = some (Value.Int 7) from rfl] at hcontra
  injection hcontra with h1
  injection h1 with h2
  omega

/-- C2 (amended): `run` evaluates items strictly in order, but a top-level
`return` does not short-circuit: `eval_item` unwraps the `Return` signal
into a plain value, so `runItems` continues with the remaining items and
the program's result is the last item's value (the `Value::Return` check in
`run` only fires for a `Value.Return` value, which no evaluation path
produces).  On `return 5; 7` the result is `7`. -/
theorem C2_items_in_order_return_is_plain_value :
    (∀ fuel st s v st₁ rest acc,
      evalStmt fuel st s = .ok (.Return v, st₁) →
      (∀ w, v ≠ Value.Return w) →
      runItems (fuel + 1 + 1) st (.Statement s :: rest) acc
        = runItems (fuel + 1) st₁ rest v) ∧
    (∀ fuel st it v st₁ rest acc,
      evalItem fuel st it = .ok (v, st₁) →
      (∀ w, v ≠ Value.Return w) →
      runItems (fuel + 1) st (it :: rest) acc = runItems fuel st₁ rest v) ∧
    resValue (run 10 initialSt progReturnThenSeven) = some (.Int 7) := by
  refine ⟨?_, ?_, rfl⟩
  · intro fuel st s v st₁ rest acc hs hv
    cases v <;>
      · simp only [runItems, evalItem, hs, Res.andThen]
        try first | rfl | exact absurd rfl (hv _)
  · intro fuel st it v st₁ rest acc hi hv
    cases v <;>
      · simp only [runItems, hi, Res.andThen]
        try first | rfl | exact absurd rfl (hv _)

/-- C3: the claim says `<a href="x">hi</a>` renders to itself with `&<>"'`
escaping.  In the code, `render_jsx` pushes every attribute value through
`eval_jsx_expression`, which is a leftover stub that fails unconditionally —
so any element with an attribute value fails to render with the stub's
message instead.  The attribute-free examples do hold: `<b/>` renders to
`<b />` (self-closing) and a text child containing `&` is escaped to
`&amp;`.  This theorem evaluates the renderer, and the interpreter's markup
expression path, at the failing input. -/
theorem C3_attr_value_rendering_fails_on_stub :
    renderJsx initialSt aHrefElem
      = .err "Initialize logic pending pub(crate) access" ∧
    evalExpr 1 initialSt (.JsxElement aHrefElem)
      = .err "Initialize logic pending pub(crate) access" ∧
    renderJsx initialSt bEmptyElem = .ok "<b />" ∧
    renderJsx initialSt ampTextElem = .ok "<p>a&amp;b</p>" :=
  ⟨rfl, rfl, rfl, rfl⟩

/-- C4 counterexample: the program consisting of the undefined identifier
`zzz` parses (it is a well-formed AST) and the checker returns one
diagnostic; `run_file` then reports the diagnostics and returns — the
interpreter is never run, contradicting the claim that diagnostics never
block interpretation. -/
theorem C4_counterexample_diagnostics_block_run :
    runFileOn 10 progUndefVar
      = .TypeErrorsReported ["Undefined variable: zzz"] ∧
    (∀ r, runFileOn 10 progUndefVar ≠ .Ran r) := by
  refine ⟨rfl, ?_⟩
  intro r hcontra
  rw [show runFileOn 10 progUndefVar
        = .TypeErrorsReported ["Undefined variable: zzz"] from rfl] at hcontra
  exact RunFileOutcome.noConfusion hcontra

/-- C4 (amended): the checker itself never aborts — `check` is a total
function to a diagnostics list — but `run_file` treats a non-empty list as
fatal: it reports the diagnostics and skips interpretation entirely; the
interpreter runs exactly when the diagnostics list is empty. -/
theorem C4_run_file_gates_on_diagnostics :
    (∀ fuel p, check p = [] →
        runFileOn fuel p = .Ran (run fuel initialSt p)) ∧
    (∀ fuel p, check p ≠ [] →
        runFileOn fuel p = .TypeErrorsReported (check p)) := by
  constructor
  · intro fuel p hc
    simp [runFileOn, hc]
  · intro fuel p hc
    have hne : (check p).isEmpty = false := by
      cases hcp : check p with
      | nil => exact absurd hcp hc
      | cons a l => rfl
    simp [runFileOn, hne]

/-- Looking a name up from a freshly allocated empty scope whose parent is
`cenv` is exactly looking it up from `cenv`. -/
theorem envGetAux_fresh_child (h : List Env) (cenv : Nat) (x : String) :
    envGetAux (h ++ [{ values := [], parent := some cenv }])
        (h.length + 1 + 1) h.length x
      = envGetAux (h ++ [{ values := [], parent := some cenv }])
        (h.length + 1) cenv x := by
  simp only [envGetAux, List.get?_concat_length, assocGet]

/-- C5: `call_function` evaluates a `Fn` value's body in a fresh scope whose
parent is the closure's captured environment.  First conjunct: for a
parameterless closure whose whole body is `return x`, the call's result is
exactly the lookup of `x` through the closure environment `cenv` — the
caller's current environment appears nowhere in the result.  Second
conjunct: the make/inner program (an inner function created inside `make`,
returned, and called after `make` has returned) yields `10`. -/
theorem C5_closure_env_is_parent_make_inner_10 :
    (∀ fuel st cenv fname x v,
      envGetAux (st.envH ++ [{ values := [], parent := some cenv }])
          (st.envH.length + 1) cenv x = some v →
      callFunction (fuel + 1 + 1 + 1 + 1) st (.Fn (retIdFn fname x) cenv) []
        = .ok (v, { st with
            envH := st.envH ++ [{ values := [], parent := some cenv }] })) ∧
    resValue (run 30 initialSt progMakeInner) = some (.Int 10) := by
  constructor
  · intro fuel st cenv fname x v hv
    simp only [callFunction, retIdFn, bindParams, callFnBody, evalStmt,
      evalExpr, envGetFrom, List.zip, List.foldl, List.length_nil,
      List.length_append, List.length_cons]
    rw [show st.envH.length + (0 + 1) + 1 = st.envH.length + 1 + 1 by omega]
    rw [envGetAux_fresh_child st.envH cenv x, hv]
    simp [Res.andThen]
  · rfl

/-- C6: loop control signals.  In a `while` body, `Break` ends the loop at
once with normal completion and no value (the remaining statements of the
iteration are not run — `rest` is arbitrary and absent from the result);
`Continue` abandons the remaining statements and goes back to the loop's own
condition test; `Return` propagates out unchanged.  The `for` versions are
the same with "next element" in place of the condition test.  A `while` or
`for` statement never produces a `Break` or `Continue` signal itself, so
neither escapes past the enclosing loop.  Concretely: `break` inside
`while true` leaves `x = 0`, and `continue` inside a `for` body skips the
rest of the body (`s` stays `0`) while still visiting every element (`i`
ends at `3`). -/
theorem C6_break_continue_return_loop_semantics :
    (∀ fuel st st' w s rest, evalStmt fuel st s = .ok (.Break, st') →
      whileBody (fuel + 1) st w (s :: rest) = .ok (.Value .None, st')) ∧
    (∀ fuel st st' w s rest, evalStmt fuel st s = .ok (.Continue, st') →
      whileBody (fuel + 1) st w (s :: rest) = evalWhile fuel st' w) ∧
    (∀ fuel st st' w s rest v, evalStmt fuel st s = .ok (.Return v, st') →
      whileBody (fuel + 1) st w (s :: rest) = .ok (.Return v, st')) ∧
    (∀ fuel st st' f items s rest, evalStmt fuel st s = .ok (.Break, st') →
      forStmts (fuel + 1) st f items (s :: rest) = .ok (.Value .None, st')) ∧
    (∀ fuel st st' f items s rest, evalStmt fuel st s = .ok (.Continue, st') →
      forStmts (fuel + 1) st f items (s :: rest) = forIter fuel st' f items) ∧
    (∀ fuel st st' f items s rest v, evalStmt fuel st s = .ok (.Return v, st') →
      forStmts (fuel + 1) st f items (s :: rest) = .ok (.Return v, st')) ∧
    (∀ fuel st w r st', evalWhile fuel st w = .ok (r, st') →
      r ≠ .Break ∧ r ≠ .Continue) ∧
    (∀ fuel st f r st', evalFor fuel st f = .ok (r, st') →
      r ≠ .Break ∧ r ≠ .Continue) ∧
    resValue (run 30 initialSt progWhileBreak) = some (.Int 0) ∧
    resValue (run 40 initialSt progForContinue) = some (.Int 0) ∧
    resValue (run 40 initialSt progForVisitsAll) = some (.Int 3) := by
  refine ⟨?_, ?_, ?_, ?_, ?_, ?_, ?_, ?_, rfl, rfl, rfl⟩
  · intro fuel st st' w s rest h
    simp [whileBody, h, Res.andThen]
  · intro fuel st st' w s rest h
    simp [whileBody, h, Res.andThen]
  · intro fuel st st' w s rest v h
    simp [whileBody, h, Res.andThen]
  · intro fuel st st' f items s rest h
    simp [forStmts, h, Res.andThen]
  · intro fuel st st' f items s rest h
    simp [forStmts, h, Res.andThen]
  · intro fuel st st' f items s rest v h
    simp [forStmts, h, Res.andThen]
  · intro fuel st w r st' h
    rcases (while_sig fuel).1 st w r st' h with h1 | ⟨v, h1⟩ <;> subst h1 <;>
      exact ⟨by simp, by simp⟩
  · intro fuel st f r st' h
    rcases (for_sig fuel).1 st f r st' h with h1 | ⟨v, h1⟩ <;> subst h1 <;>
      exact ⟨by simp, by simp⟩

/-- C7: `List` values are shared: `append` mutates the receiver's heap cell
in place (first conjunct: the cell at the receiver's address gains the
element, every other cell, the environment heap, the map heap and the
current environment are untouched), so two names bound to the same cell
observe each other's mutation.  Concretely, after
`let a = [1]; let b = a; a.append(2)`, reading `b` yields the same cell
(address 0) and its contents are `[1, 2]` — the aliasing law of the spec.
Scalar variants carry their payload directly in the `Value` (no address), so
they are copied on assignment by construction. -/
theorem C7_shared_list_append_aliasing :
    (∀ st a v vs, st.listH.get? a = some vs →
      ∃ st', callMethod st (.List a) "append" [v] = .ok (.None, st') ∧
        st'.listH.get? a = some (vs ++ [v]) ∧
        (∀ b, b ≠ a → st'.listH.get? b = st.listH.get? b) ∧
        st'.envH = st.envH ∧ st'.mapH = st.mapH ∧ st'.curEnv = st.curEnv) ∧
    resValue (run 30 initialSt progAlias) = some (.List 0) ∧
    resListCell (run 30 initialSt progAlias) = some [.Int 1, .Int 2] := by
  refine ⟨?_, rfl, rfl⟩
  intro st a v vs hv
  refine ⟨{ st with listH := listModify st.listH a (fun l => l ++ [v]) },
    rfl, ?_, ?_, rfl, rfl, rfl⟩
  · exact get?_listModify_self st.listH a _ vs hv
  · intro b hb
    exact get?_listModify_other st.listH a b _ hb

/-- C8: `and`/`or` evaluate both operands eagerly: the right operand is
evaluated before the boolean combination is computed, so a runtime error in
it fails the whole expression no matter what the left operand was (the
first conjunct never looks at `lv`).  Concretely, `true or zzz` fails with
the undefined-variable error even though the left operand alone already
decides the disjunction. -/
theorem C8_and_or_eager_both_operands :
    (∀ fuel st l op r lv st₁ msg,
      (op = BinaryOp.And ∨ op = BinaryOp.Or) →
      evalExpr fuel st l = .ok (lv, st₁) →
      evalExpr fuel st₁ r = .err msg →
      evalExpr (fuel + 1) st (.BinaryOp (.mk l op r)) = .err msg) ∧
    resErrMsg (run 30 initialSt progOrUndef) = some "Undefined variable: zzz" := by
  refine ⟨?_, rfl⟩
  intro fuel st l op r lv st₁ msg _ h1 h2
  simp [evalExpr, h1, h2, Res.andThen]

/-- C9: an assignment whose target is not a plain identifier evaluates its
right-hand side (with all side effects) and then completes with `Value
None`, its final state being exactly the post-right-hand-side state: the
write is neither performed nor reported.  Concretely, after
`xs[0] = ys.append(2)`, `xs` still reads `[1]` while `ys` reads `[5, 2]`
(the right-hand side's effect did happen), and after `o.x = 5` a read of
`o.x` still fails with the unknown-member error. -/
theorem C9_nonidentifier_assignment_write_dropped :
    (∀ fuel st target value v st₁,
      (∀ name, target ≠ .Identifier name) →
      evalExpr fuel st value = .ok (v, st₁) →
      evalStmt (fuel + 1) st (.Assignment { target := target, value := value })
        = .ok (.Value .None, st₁)) ∧
    resListCell (run 30 initialSt progDropIndexWrite) = some [.Int 1] ∧
    resListCell (run 30 initialSt progDropWriteSideEffect)
      = some [.Int 5, .Int 2] ∧
    resErrMsg (run 30 initialSt progMemberWriteDropped)
      = some "Unknown member: x" := by
  refine ⟨?_, rfl, rfl, rfl⟩
  intro fuel st target value v st₁ hne hval
  cases target <;>
    first
      | exact absurd rfl (hne _)
      | simp [evalStmt, hval, Res.andThen]

/-- C10: assigning to an identifier bound nowhere in the environment chain
is not an error: `set` fails to find a binding, so the statement defines the
name in the innermost scope and completes with `Value None`, and the very
next lookup of the name succeeds with the assigned value.  Concretely,
`y = 5; y` yields `5` with `y` never declared. -/
theorem C10_assign_unbound_defines_innermost :
    (∀ fuel st name rhs v st₁,
      evalExpr fuel st rhs = .ok (v, st₁) →
      envGetFrom st₁ st₁.curEnv name = Option.none →
      st₁.curEnv < st₁.envH.length →
      evalStmt (fuel + 1) st
          (.Assignment { target := .Identifier name, value := rhs })
        = .ok (.Value .None, envDefine st₁ st₁.curEnv name v) ∧
      envGetFrom (envDefine st₁ st₁.curEnv name v)
          (envDefine st₁ st₁.curEnv name v).curEnv name = some v) ∧
    resValue (run 30 initialSt progAssignUnbound) = some (.Int 5) := by
  refine ⟨?_, rfl⟩
  intro fuel st name rhs v st₁ hval hunbound hlt
  have hset : envSet st₁ name v = Option.none := by
    unfold envSet
    rw [envSetAux_none st₁.envH (st₁.envH.length + 1) st₁.curEnv name v hunbound]
  obtain ⟨e, he⟩ : ∃ e, st₁.envH.get? st₁.curEnv = some e := by
    cases hg : st₁.envH.get? st₁.curEnv with
    | none =>
      have := List.get?_eq_none.mp hg
      omega
    | some e => exact ⟨e, rfl⟩
  constructor
  · simp [evalStmt, hval, Res.andThen, hset]
  · simp only [envDefine, envGetFrom]
    rw [listModify_length]
    simp only [envGetAux]
    rw [get?_listModify_self st₁.envH st₁.curEnv _ e he]
    simp [assocGet_assocSet_same]

end N7tya
